import Mathlib

/-!
Verification of the HLS relay proxy (`src/app/api/stream/route.ts`,
`src/app/api/vavoo-stream-v2/route.ts`, `src/unnamed/part_002`).

The route handlers are shallowly embedded as pure Lean functions.  Network
calls are threaded through explicit "oracle" parameters (the outcome a
given upstream request would produce), current time is an explicit `Nat`
parameter, and the process-wide caches are explicit state records.

The JavaScript platform primitives used by the handlers
(`encodeURIComponent`, `decodeURIComponent`, `URLSearchParams`, `new URL`,
`String.prototype.trim/split/startsWith/includes`, `Array.prototype.join`)
are modelled by executable Lean functions over `List Char`, documented at
their definitions.
-/

namespace Relive

/-- Model of JS `String.prototype.startsWith`. -/
def startsWithStr (s pre : String) : Bool :=
  pre.data.isPrefixOf s.data

/-- Substring search over char lists: `sub` occurs contiguously in `l`. -/
def containsL (sub l : List Char) : Bool :=
  l.tails.any (fun t => sub.isPrefixOf t)

/-- Model of JS `String.prototype.includes`. -/
def containsStr (s sub : String) : Bool :=
  containsL sub.data s.data

/-- The whitespace code points removed by JS `String.prototype.trim`
(ASCII whitespace plus the common Unicode ones; exotic `Zs` code points
are omitted, none of which occur in HLS manifests). -/
def isJsSpace (c : Char) : Bool :=
  c = ' ' || c = '\t' || c = '\n' || c = '\r' ||
  c.toNat = 11 || c.toNat = 12 || c.toNat = 0xA0 || c.toNat = 0xFEFF ||
  c.toNat = 0x2028 || c.toNat = 0x2029

/-- Model of JS `String.prototype.trim` over char lists. -/
def trimL (l : List Char) : List Char :=
  ((l.dropWhile isJsSpace).reverse.dropWhile isJsSpace).reverse

/-- Model of JS `String.prototype.trim`. -/
def jsTrim (s : String) : String :=
  String.mk (trimL s.data)

/-- Model of JS `String.prototype.split(sep)` for a one-character
separator (always returns at least one group). -/
def splitChar (sep : Char) : List Char → List (List Char)
  | [] => [[]]
  | c :: rest =>
    match splitChar sep rest with
    | [] => [[]]
    | g :: gs => if c = sep then [] :: g :: gs else (c :: g) :: gs

/-- Model of JS `Array.prototype.join(sep)` for a one-character
separator. -/
def joinChar (sep : Char) : List (List Char) → List Char
  | [] => []
  | [g] => g
  | g :: gs => g ++ sep :: joinChar sep gs

theorem splitChar_ne_nil (sep : Char) (l : List Char) : splitChar sep l ≠ [] := by
  cases l with
  | nil => simp [splitChar]
  | cons c rest =>
    simp only [splitChar]
    match h : splitChar sep rest with
    | [] => simp
    | g :: gs => by_cases hc : c = sep <;> simp [hc]

/-! ## Percent-encoding (models of `encodeURIComponent`, `decodeURIComponent`,
and `URLSearchParams` serialization/parsing) -/

/-- Uppercase hex digit for a value below 16 (as emitted by JS percent
escapes). -/
def hexDig (n : Nat) : Char :=
  Char.ofNat (if n < 10 then 48 + n else 55 + n)

/-- Numeric value of a hex digit character (either case), `none` for
non-hex characters. -/
def hexVal (c : Char) : Option Nat :=
  if 48 ≤ c.toNat ∧ c.toNat ≤ 57 then some (c.toNat - 48)
  else if 65 ≤ c.toNat ∧ c.toNat ≤ 70 then some (c.toNat - 65 + 10)
  else if 97 ≤ c.toNat ∧ c.toNat ≤ 102 then some (c.toNat - 97 + 10)
  else none

/-- UTF-8 encoding of a code point, as a list of byte values. -/
def utf8EncodeCp (n : Nat) : List Nat :=
  if n < 0x80 then [n]
  else if n < 0x800 then [0xC0 + n / 64, 0x80 + n % 64]
  else if n < 0x10000 then [0xE0 + n / 4096, 0x80 + (n / 64) % 64, 0x80 + n % 64]
  else [0xF0 + n / 262144, 0x80 + (n / 4096) % 64, 0x80 + (n / 64) % 64, 0x80 + n % 64]

/-- A `%XX` escape for one byte. -/
def escByte (b : Nat) : List Char :=
  ['%', hexDig (b / 16), hexDig (b % 16)]

/-- Characters that JS `encodeURIComponent` leaves unescaped:
`A-Z a-z 0-9 - _ . ! ~ * ' ( )`. -/
def isUnreservedURI (c : Char) : Bool :=
  (65 ≤ c.toNat && c.toNat ≤ 90) || (97 ≤ c.toNat && c.toNat ≤ 122) ||
  (48 ≤ c.toNat && c.toNat ≤ 57) ||
  c = '-' || c = '_' || c = '.' || c = '!' || c = '~' || c = '*' ||
  c = '\'' || c = '(' || c = ')'

/-- Characters that the `URLSearchParams` (`application/x-www-form-urlencoded`)
serializer leaves unescaped: `A-Z a-z 0-9 * - . _`. -/
def isFormSafe (c : Char) : Bool :=
  (65 ≤ c.toNat && c.toNat ≤ 90) || (97 ≤ c.toNat && c.toNat ≤ 122) ||
  (48 ≤ c.toNat && c.toNat ≤ 57) ||
  c = '*' || c = '-' || c = '.' || c = '_'

/-- Generic percent encoder over one character: keeps characters satisfying
`keep`, encodes a space as `+` when `plus` is set (form encoding), and
escapes everything else as UTF-8 `%XX` sequences. -/
def encGenChar (keep : Char → Bool) (plus : Bool) (c : Char) : List Char :=
  if plus && c = ' ' then ['+']
  else if keep c then [c]
  else (utf8EncodeCp c.toNat).flatMap escByte

/-- Generic percent encoder over a character list. -/
def encGen (keep : Char → Bool) (plus : Bool) (l : List Char) : List Char :=
  l.flatMap (encGenChar keep plus)

/-- Model of JS `encodeURIComponent`. -/
def encodeURIComponent (s : String) : String :=
  String.mk (encGen isUnreservedURI false s.data)

/-- Model of the value serialization performed by
`URLSearchParams.prototype.toString`. -/
def formValueEncode (s : String) : String :=
  String.mk (encGen isFormSafe true s.data)

/-- First decoding phase: turn `%XX` escapes into byte tokens (`Sum.inr`)
and leave all other characters as character tokens (`Sum.inl`).  A `%` not
followed by two hex digits is a decoding error (JS throws `URIError`). -/
def unescapeTokens : List Char → Option (List (Sum Char Nat))
  | [] => some []
  | c :: rest =>
    if c = '%' then
      match rest with
      | h1 :: h2 :: rest2 =>
        match hexVal h1, hexVal h2 with
        | some a, some b => (unescapeTokens rest2).map (fun t => Sum.inr (16 * a + b) :: t)
        | _, _ => none
      | _ => none
    else (unescapeTokens rest).map (fun t => Sum.inl c :: t)

/-- A Unicode scalar value (excludes surrogates). -/
def isValidCp (n : Nat) : Bool :=
  n < 0xD800 || (0xDFFF < n && n < 0x110000)

set_option maxRecDepth 4096

/-- The state of a partially read multi-byte UTF-8 sequence: the
accumulated bits, the number of continuation bytes still expected, and the
smallest code point the sequence may legally encode (overlong check). -/
structure Utf8Pending where
  acc : Nat
  need : Nat
  low : Nat

/-- Second decoding phase, as a single left-to-right pass: reassemble byte
tokens as UTF-8 sequences (rejecting stray continuation bytes, truncated
sequences, overlong forms and invalid code points, on which JS throws
`URIError`); character tokens pass through. -/
def tokensGo : Option Utf8Pending → List (Sum Char Nat) → Option (List Char)
  | none, [] => some []
  | some _, [] => none
  | none, Sum.inl c :: ts => (tokensGo none ts).map (fun l => c :: l)
  | none, Sum.inr b :: ts =>
    if b < 0x80 then (tokensGo none ts).map (fun l => Char.ofNat b :: l)
    else if b < 0xC0 then none
    else if b < 0xE0 then tokensGo (some ⟨b - 0xC0, 1, 0x80⟩) ts
    else if b < 0xF0 then tokensGo (some ⟨b - 0xE0, 2, 0x800⟩) ts
    else if b < 0xF8 then tokensGo (some ⟨b - 0xF0, 3, 0x10000⟩) ts
    else none
  | some _, Sum.inl _ :: _ => none
  | some st, Sum.inr b :: ts =>
    if 0x80 ≤ b && b < 0xC0 then
      if st.need = 1 then
        if st.low ≤ st.acc * 64 + (b - 0x80) && isValidCp (st.acc * 64 + (b - 0x80)) then
          (tokensGo none ts).map (fun l => Char.ofNat (st.acc * 64 + (b - 0x80)) :: l)
        else none
      else tokensGo (some ⟨st.acc * 64 + (b - 0x80), st.need - 1, st.low⟩) ts
    else none

/-- Second decoding phase on a fresh state. -/
def tokensToChars (ts : List (Sum Char Nat)) : Option (List Char) :=
  tokensGo none ts

/-- Percent-decoding over a character list. -/
def percentDecodeL (l : List Char) : Option (List Char) :=
  (unescapeTokens l).bind tokensToChars

/-- Model of JS `decodeURIComponent` (`none` models a thrown `URIError`). -/
def decodeURIComponent (s : String) : Option String :=
  (percentDecodeL s.data).map String.mk

/-- Model of the value decoding performed by `URLSearchParams` parsing
(`application/x-www-form-urlencoded`): `+` means space, then
percent-decoding. -/
def formDecodeValue (s : String) : Option String :=
  (percentDecodeL (s.data.map (fun c => if c = '+' then ' ' else c))).map String.mk

/-! ### Round-trip lemmas for the percent machinery -/

theorem hexVal_hexDig (n : Nat) (h : n < 16) : hexVal (hexDig n) = some n := by
  interval_cases n <;> decide

/-- The character code of a hex digit lies in the digit or upper-case
letter band. -/
theorem hexDig_toNat (n : Nat) (h : n < 16) :
    (48 ≤ (hexDig n).toNat ∧ (hexDig n).toNat ≤ 57) ∨
      (65 ≤ (hexDig n).toNat ∧ (hexDig n).toNat ≤ 70) := by
  interval_cases n <;> decide

theorem unescapeTokens_cons_ne (c : Char) (rest : List Char) (hc : c ≠ '%') :
    unescapeTokens (c :: rest) = (unescapeTokens rest).map (fun t => Sum.inl c :: t) := by
  cases rest with
  | nil => simp [unescapeTokens, hc]
  | cons h1 r1 =>
    cases r1 with
    | nil => simp [unescapeTokens, hc]
    | cons h2 r2 => simp [unescapeTokens, hc]

theorem unescapeTokens_escByte (b : Nat) (hb : b < 256) (rest : List Char) :
    unescapeTokens (escByte b ++ rest) =
      (unescapeTokens rest).map (fun t => Sum.inr b :: t) := by
  have h1 : b / 16 < 16 := by omega
  have h2 : b % 16 < 16 := by omega
  have hb16 : 16 * (b / 16) + b % 16 = b := by omega
  simp [escByte, unescapeTokens, hexVal_hexDig _ h1, hexVal_hexDig _ h2, hb16]

theorem unescapeTokens_escBytes (bs : List Nat) (hbs : ∀ b ∈ bs, b < 256)
    (rest : List Char) :
    unescapeTokens (bs.flatMap escByte ++ rest) =
      (unescapeTokens rest).map (fun t => bs.map Sum.inr ++ t) := by
  induction bs with
  | nil => simp
  | cons b bs ih =>
    have hb : b < 256 := hbs b (by simp)
    have hbs2 : ∀ x ∈ bs, x < 256 := fun x hx => hbs x (by simp [hx])
    simp only [List.flatMap_cons, List.append_assoc]
    rw [unescapeTokens_escByte b hb, ih hbs2]
    cases unescapeTokens rest <;> simp

theorem utf8EncodeCp_lt_256 (n : Nat) (hn : n < 0x110000) :
    ∀ b ∈ utf8EncodeCp n, b < 256 := by
  intro b hb
  unfold utf8EncodeCp at hb
  split_ifs at hb <;> simp at hb <;> omega

/-- Decoding the UTF-8 byte tokens of one character prepends exactly that
character. -/
theorem tokensToChars_utf8 (c : Char) (ts : List (Sum Char Nat)) :
    tokensToChars ((utf8EncodeCp c.toNat).map Sum.inr ++ ts) =
      (tokensToChars ts).map (fun l => c :: l) := by
  have hvalid : c.toNat < 0xD800 ∨ (0xDFFF < c.toNat ∧ c.toNat < 0x110000) := c.valid
  have hofnat : Char.ofNat c.toNat = c := Char.ofNat_toNat c
  unfold tokensToChars
  set n := c.toNat with hn
  by_cases h80 : n < 0x80
  · rw [utf8EncodeCp, if_pos h80]
    simp only [List.map_cons, List.map_nil, List.cons_append, List.nil_append]
    rw [tokensGo, if_pos h80, hofnat]
  · by_cases h800 : n < 0x800
    · rw [utf8EncodeCp, if_neg h80, if_pos h800]
      simp only [List.map_cons, List.map_nil, List.cons_append, List.nil_append]
      have e1 : ¬ (0xC0 + n / 64 < 0x80) := by omega
      have e2 : ¬ (0xC0 + n / 64 < 0xC0) := by omega
      have e3 : 0xC0 + n / 64 < 0xE0 := by omega
      have e4 : (0x80 ≤ 0x80 + n % 64 && 0x80 + n % 64 < 0xC0) = true := by
        simp only [Bool.and_eq_true, decide_eq_true_eq]
        omega
      have e5 : (0xC0 + n / 64 - 0xC0) * 64 + (0x80 + n % 64 - 0x80) = n := by omega
      have e6 : (0x80 ≤ n && isValidCp n) = true := by
        simp only [isValidCp, Bool.and_eq_true, Bool.or_eq_true, decide_eq_true_eq]
        omega
      rw [tokensGo, if_neg e1, if_neg e2, if_pos e3]
      rw [tokensGo, if_pos e4, if_pos rfl]
      rw [e5, if_pos e6, hofnat]
    · by_cases h10000 : n < 0x10000
      · rw [utf8EncodeCp, if_neg h80, if_neg h800, if_pos h10000]
        simp only [List.map_cons, List.map_nil, List.cons_append, List.nil_append]
        have e1 : ¬ (0xE0 + n / 4096 < 0x80) := by omega
        have e2 : ¬ (0xE0 + n / 4096 < 0xC0) := by omega
        have e3 : ¬ (0xE0 + n / 4096 < 0xE0) := by omega
        have e4 : 0xE0 + n / 4096 < 0xF0 := by omega
        have e5 : (0x80 ≤ 0x80 + n / 64 % 64 && 0x80 + n / 64 % 64 < 0xC0) = true := by
          simp only [Bool.and_eq_true, decide_eq_true_eq]
          omega
        have e6 : (0x80 ≤ 0x80 + n % 64 && 0x80 + n % 64 < 0xC0) = true := by
          simp only [Bool.and_eq_true, decide_eq_true_eq]
          omega
        have e7 : ((0xE0 + n / 4096 - 0xE0) * 64 + (0x80 + n / 64 % 64 - 0x80)) * 64 +
            (0x80 + n % 64 - 0x80) = n := by omega
        have e8 : (0x800 ≤ n && isValidCp n) = true := by
          simp only [isValidCp, Bool.and_eq_true, Bool.or_eq_true, decide_eq_true_eq]
          omega
        rw [tokensGo, if_neg e1, if_neg e2, if_neg e3, if_pos e4]
        rw [tokensGo]
        dsimp only
        rw [if_pos e5, if_neg (show ¬ ((2:Nat) = 1) by decide)]
        rw [tokensGo]
        dsimp only
        rw [if_pos e6, if_pos rfl, e7, if_pos e8, hofnat]
      · rw [utf8EncodeCp, if_neg h80, if_neg h800, if_neg h10000]
        have hup : n < 0x110000 := by
          rcases hvalid with h | h
          · omega
          · omega
        simp only [List.map_cons, List.map_nil, List.cons_append, List.nil_append]
        have e1 : ¬ (0xF0 + n / 262144 < 0x80) := by omega
        have e2 : ¬ (0xF0 + n / 262144 < 0xC0) := by omega
        have e3 : ¬ (0xF0 + n / 262144 < 0xE0) := by omega
        have e4 : ¬ (0xF0 + n / 262144 < 0xF0) := by omega
        have e4b : 0xF0 + n / 262144 < 0xF8 := by omega
        have e5 : (0x80 ≤ 0x80 + n / 4096 % 64 && 0x80 + n / 4096 % 64 < 0xC0) = true := by
          simp only [Bool.and_eq_true, decide_eq_true_eq]
          omega
        have e6 : (0x80 ≤ 0x80 + n / 64 % 64 && 0x80 + n / 64 % 64 < 0xC0) = true := by
          simp only [Bool.and_eq_true, decide_eq_true_eq]
          omega
        have e7 : (0x80 ≤ 0x80 + n % 64 && 0x80 + n % 64 < 0xC0) = true := by
          simp only [Bool.and_eq_true, decide_eq_true_eq]
          omega
        have e8 : (((0xF0 + n / 262144 - 0xF0) * 64 + (0x80 + n / 4096 % 64 - 0x80)) * 64 +
            (0x80 + n / 64 % 64 - 0x80)) * 64 + (0x80 + n % 64 - 0x80) = n := by omega
        have e9 : (0x10000 ≤ n && isValidCp n) = true := by
          simp only [isValidCp, Bool.and_eq_true, Bool.or_eq_true, decide_eq_true_eq]
          omega
        rw [tokensGo, if_neg e1, if_neg e2, if_neg e3, if_neg e4, if_pos e4b]
        rw [tokensGo]
        dsimp only
        rw [if_pos e5, if_neg (show ¬ ((3:Nat) = 1) by decide)]
        rw [tokensGo]
        dsimp only
        rw [if_pos e6, if_neg (show ¬ ((2:Nat) = 1) by decide)]
        rw [tokensGo]
        dsimp only
        rw [if_pos e7, if_pos rfl, e8, if_pos e9, hofnat]

theorem tokensToChars_inl (c : Char) (ts : List (Sum Char Nat)) :
    tokensToChars (Sum.inl c :: ts) = (tokensToChars ts).map (fun l => c :: l) := rfl

theorem tokensToChars_nil : tokensToChars [] = some [] := rfl

theorem stringMk_data (s : String) : String.mk s.data = s := by
  cases s
  rfl

theorem char_toNat_lt (c : Char) : c.toNat < 0x110000 := by
  have he : c.toNat = c.val.toNat := rfl
  rcases c.valid with h | h
  · omega
  · omega

/-- Every character of a percent-encoded string is a kept character, `+`,
`%`, or a hex digit. -/
theorem mem_encGen (keep : Char → Bool) (plus : Bool) (l : List Char) (x : Char)
    (hx : x ∈ encGen keep plus l) :
    keep x = true ∨ x = '+' ∨ x = '%' ∨
      (48 ≤ x.toNat ∧ x.toNat ≤ 57) ∨ (65 ≤ x.toNat ∧ x.toNat ≤ 70) := by
  unfold encGen at hx
  rw [List.mem_flatMap] at hx
  obtain ⟨c, _, hc⟩ := hx
  unfold encGenChar at hc
  split_ifs at hc with hp hk
  · simp at hc
    subst hc
    right
    left
    rfl
  · simp at hc
    subst hc
    left
    exact hk
  · rw [List.mem_flatMap] at hc
    obtain ⟨b, hb, hbc⟩ := hc
    have hb256 : b < 256 := utf8EncodeCp_lt_256 c.toNat (char_toNat_lt c) b hb
    unfold escByte at hbc
    simp only [List.mem_cons, List.mem_singleton, List.not_mem_nil, or_false] at hbc
    rcases hbc with rfl | rfl | rfl
    · right
      right
      left
      rfl
    · rcases hexDig_toNat (b / 16) (by omega) with h | h
      · right; right; right; left; exact h
      · right; right; right; right; exact h
    · rcases hexDig_toNat (b % 16) (by omega) with h | h
      · right; right; right; left; exact h
      · right; right; right; right; exact h

/-- Generic encode-then-decode round trip (plain variant, no `+`
handling). -/
theorem percentDecodeL_encGen (keep : Char → Bool) (hk : keep '%' = false)
    (l : List Char) : percentDecodeL (encGen keep false l) = some l := by
  induction l with
  | nil => simp [percentDecodeL, encGen, unescapeTokens, tokensToChars_nil]
  | cons c l ih =>
    obtain ⟨ts, hts, htc⟩ : ∃ ts, unescapeTokens (encGen keep false l) = some ts ∧
        tokensToChars ts = some l := by
      unfold percentDecodeL at ih
      cases hE : unescapeTokens (encGen keep false l) with
      | none => rw [hE] at ih; cases ih
      | some ts => rw [hE] at ih; exact ⟨ts, rfl, ih⟩
    have hcons : encGen keep false (c :: l) =
        encGenChar keep false c ++ encGen keep false l := by
      unfold encGen
      rw [List.flatMap_cons]
    by_cases hkc : keep c = true
    · have hcne : c ≠ '%' := by
        intro h
        rw [h, hk] at hkc
        cases hkc
      have hchar : encGenChar keep false c = [c] := by
        simp [encGenChar, hkc]
      rw [hcons, hchar]
      unfold percentDecodeL
      rw [List.singleton_append, unescapeTokens_cons_ne c _ hcne, hts]
      simp [tokensToChars_inl, htc]
    · have hchar : encGenChar keep false c = (utf8EncodeCp c.toNat).flatMap escByte := by
        simp [encGenChar, hkc]
      have hcp : c.toNat < 0x110000 := char_toNat_lt c
      rw [hcons, hchar]
      unfold percentDecodeL
      rw [unescapeTokens_escBytes _ (utf8EncodeCp_lt_256 c.toNat hcp) _, hts]
      simp [tokensToChars_utf8, htc]

/-- Undoing `+` after a form encoding gives a plain percent encoding with
space kept. -/
theorem map_plus_encGen (keep : Char → Bool) (hplus : keep '+' = false)
    (l : List Char) :
    (encGen keep true l).map (fun c => if c = '+' then ' ' else c) =
      encGen (fun c => keep c || c = ' ') false l := by
  induction l with
  | nil => rfl
  | cons c l ih =>
    unfold encGen at ih ⊢
    rw [List.flatMap_cons, List.flatMap_cons, List.map_append, ih]
    congr 1
    by_cases hsp : c = ' '
    · subst hsp
      simp [encGenChar]
    · by_cases hkc : keep c = true
      · have hcp : c ≠ '+' := by
          intro h
          rw [h, hplus] at hkc
          cases hkc
        simp [encGenChar, hsp, hkc, hcp]
      · have hL : encGenChar keep true c = (utf8EncodeCp c.toNat).flatMap escByte := by
          simp [encGenChar, hkc, hsp]
        have hR : encGenChar (fun y => keep y || y = ' ') false c =
            (utf8EncodeCp c.toNat).flatMap escByte := by
          simp [encGenChar, hkc, hsp]
        rw [hL, hR]
        have hid : ∀ x ∈ (utf8EncodeCp c.toNat).flatMap escByte,
            (fun y => if y = '+' then ' ' else y) x = x := by
          intro x hx
          have hb : x = '%' ∨ (48 ≤ x.toNat ∧ x.toNat ≤ 57) ∨
              (65 ≤ x.toNat ∧ x.toNat ≤ 70) := by
            rw [List.mem_flatMap] at hx
            obtain ⟨b, hbm, hbc⟩ := hx
            have hb256 : b < 256 := utf8EncodeCp_lt_256 c.toNat (char_toNat_lt c) b hbm
            unfold escByte at hbc
            simp only [List.mem_cons, List.mem_singleton, List.not_mem_nil,
              or_false] at hbc
            rcases hbc with rfl | rfl | rfl
            · left; rfl
            · rcases hexDig_toNat (b / 16) (by omega) with h | h
              · right; left; exact h
              · right; right; exact h
            · rcases hexDig_toNat (b % 16) (by omega) with h | h
              · right; left; exact h
              · right; right; exact h
          have hxp : x ≠ '+' := by
            rcases hb with rfl | h | h
            · decide
            · intro hx2
              rw [hx2] at h
              revert h
              decide
            · intro hx2
              rw [hx2] at h
              revert h
              decide
          simp [hxp]
        conv_rhs => rw [← List.map_id ((utf8EncodeCp c.toNat).flatMap escByte)]
        exact List.map_congr_left hid

/-- `decodeURIComponent` inverts `encodeURIComponent`. -/
theorem decode_encode_roundTrip (s : String) :
    decodeURIComponent (encodeURIComponent s) = some s := by
  unfold decodeURIComponent encodeURIComponent
  show (percentDecodeL (encGen isUnreservedURI false s.data)).map String.mk = some s
  rw [percentDecodeL_encGen isUnreservedURI (by decide) s.data]
  simp [stringMk_data]

/-- `URLSearchParams` value decoding inverts its value serialization. -/
theorem formDecode_formEncode_roundTrip (s : String) :
    formDecodeValue (formValueEncode s) = some s := by
  unfold formDecodeValue formValueEncode
  show (percentDecodeL ((encGen isFormSafe true s.data).map
    (fun c => if c = '+' then ' ' else c))).map String.mk = some s
  rw [map_plus_encGen isFormSafe (by decide) s.data]
  rw [percentDecodeL_encGen _ (by decide) s.data]
  simp [stringMk_data]

/-- Percent-decoding a `%`-free character list is the identity. -/
theorem percentDecodeL_no_pct (l : List Char) (h : '%' ∉ l) :
    percentDecodeL l = some l := by
  induction l with
  | nil => simp [percentDecodeL, unescapeTokens, tokensToChars_nil]
  | cons c l ih =>
    have hcne : c ≠ '%' := by
      intro hc
      exact h (by rw [hc]; simp)
    have hl : '%' ∉ l := fun hx => h (by simp [hx])
    obtain ⟨ts, hts, htc⟩ : ∃ ts, unescapeTokens l = some ts ∧
        tokensToChars ts = some l := by
      unfold percentDecodeL at ih
      cases hE : unescapeTokens l with
      | none => rw [hE] at ih ; cases ih hl
      | some ts => rw [hE] at ih; exact ⟨ts, rfl, ih hl⟩
    unfold percentDecodeL
    rw [unescapeTokens_cons_ne c _ hcne, hts]
    simp [tokensToChars_inl, htc]

/-- `decodeURIComponent` on a `%`-free string is the identity. -/
theorem decodeURIComponent_no_pct (s : String) (h : '%' ∉ s.data) :
    decodeURIComponent s = some s := by
  unfold decodeURIComponent
  rw [percentDecodeL_no_pct s.data h]
  simp [stringMk_data]

/-! ## URL parsing (model of WHATWG `new URL`) -/

/-- The components of a parsed absolute http(s) URL: scheme flag, host
(with optional `:port`), and pathname (always beginning with `/`). -/
structure URLParts where
  secure : Bool
  host : List Char
  path : List Char
deriving DecidableEq, Repr

/-- Host and path extraction once the scheme has been recognised: the host
runs to the first `/`, `?` or `#` and must be nonempty; the pathname is the
part from the first `/` up to the query or fragment, defaulting to `/`. -/
def parseAfterScheme (sec : Bool) (rest : List Char) : Option URLParts :=
  let host := rest.takeWhile (fun c => !(c = '/' || c = '?' || c = '#'))
  if host = [] then none
  else
    let after := rest.drop host.length
    let path :=
      match after with
      | '/' :: _ => after.takeWhile (fun c => !(c = '?' || c = '#'))
      | _ => ['/']
    some ⟨sec, host, path⟩

/-- Model of WHATWG `new URL` restricted to the absolute http/https URLs
this service handles (other schemes and an empty host are invalid, as in
JS where `new URL("http://")` throws).  Host/path normalization
(case folding, dot segments, path percent-encoding) is not modelled; no URL
in the claims needs it. -/
def parseURL (s : String) : Option URLParts :=
  if startsWithStr s "https://" then parseAfterScheme true (s.data.drop 8)
  else if startsWithStr s "http://" then parseAfterScheme false (s.data.drop 7)
  else none

/-- Model of JS `URL.prototype.origin` for http(s) URLs:
`scheme://host[:port]`. -/
def originOf (p : URLParts) : String :=
  (if p.secure then "https://" else "http://") ++ String.mk p.host

/-- Model of JS `URL.prototype.hostname`: the host with any `:port`
stripped. -/
def hostnameOf (p : URLParts) : List Char :=
  p.host.takeWhile (fun c => !(c = ':'))

/-- Model of JS `URL.prototype.pathname`. -/
def pathnameOf (p : URLParts) : String :=
  String.mk p.path

/-- The handlers' base-path computation
(`pathname.split('/')`, `pop()`, `join('/') + '/'`). -/
def basePathOf (p : URLParts) : String :=
  String.mk (joinChar '/' ((splitChar '/' p.path).dropLast) ++ ['/'])

/-- `isVavooUrl` from `vavoo-stream-v2/route.ts` (lines 189-196): parse the
URL and test whether its hostname contains `vavoo.to`; unparseable URLs are
not vavoo URLs. -/
def isVavooUrl (u : String) : Bool :=
  match parseURL u with
  | some p => containsL "vavoo.to".data (hostnameOf p)
  | none => false

/-! ## The manifest rewriters -/

/-- Reference resolution shared by all three rewriters: an absolute
`http(s)` line is used as is, a root-relative line is prefixed with the
base origin, and any other line is prefixed with origin and base path. -/
def resolveRef (baseOrigin basePath trimmed : String) : String :=
  if startsWithStr trimmed "http://" || startsWithStr trimmed "https://" then trimmed
  else if startsWithStr trimmed "/" then baseOrigin ++ trimmed
  else baseOrigin ++ basePath ++ trimmed

/-- The `&mode=...` suffix appended by the `vavoo-stream-v2` rewriter. -/
def modeSuffix (mode : String) : String :=
  if mode = "cdn" then "&mode=cdn" else if mode = "auth" then "&mode=auth" else ""

/-- One line of the manifest rewriter in `vavoo-stream-v2/route.ts`
(lines 332-354): comment and blank lines pass through, reference lines are
resolved and wrapped into a same-origin relay URL. -/
def rewriteLineV2 (proxyOrigin mode baseOrigin basePath line : String) : String :=
  let trimmed := jsTrim line
  if startsWithStr trimmed "#" || trimmed = "" then line
  else
    proxyOrigin ++ "/api/vavoo-stream-v2?url=" ++
      encodeURIComponent (resolveRef baseOrigin basePath trimmed) ++ modeSuffix mode

/-- One line of the manifest rewriter in `stream/route.ts`
(lines 178-196), which always forwards to `vavoo-stream-v2` in standard
mode. -/
def rewriteLineStream (proxyOrigin baseOrigin basePath line : String) : String :=
  let trimmed := jsTrim line
  if startsWithStr trimmed "#" || trimmed = "" then line
  else
    proxyOrigin ++ "/api/vavoo-stream-v2?url=" ++
      encodeURIComponent (resolveRef baseOrigin basePath trimmed) ++ "&mode=standard"

/-- One line of the manifest rewriter in `unnamed/part_002` (lines 78-99):
the already percent-encoded absolute URL is passed through
`URLSearchParams.set/toString`, which percent-encodes it a second time. -/
def rewriteLineP2 (proxyOrigin baseOrigin basePath line : String) : String :=
  let trimmed := jsTrim line
  if startsWithStr trimmed "#" || trimmed = "" then line
  else
    proxyOrigin ++ "/api/stream?" ++ "url=" ++
      formValueEncode (encodeURIComponent (resolveRef baseOrigin basePath trimmed))

/-- Model of `text.split('\n')`. -/
def splitLines (s : String) : List String :=
  (splitChar '\n' s.data).map String.mk

/-- Model of `lines.join('\n')`. -/
def joinLines (ls : List String) : String :=
  String.mk (joinChar '\n' (ls.map String.data))

/-- The full `vavoo-stream-v2` manifest rewrite. -/
def rewriteManifestV2 (proxyOrigin mode baseOrigin basePath text : String) : String :=
  joinLines ((splitLines text).map (rewriteLineV2 proxyOrigin mode baseOrigin basePath))

/-- The full `stream/route.ts` manifest rewrite. -/
def rewriteManifestStream (proxyOrigin baseOrigin basePath text : String) : String :=
  joinLines ((splitLines text).map (rewriteLineStream proxyOrigin baseOrigin basePath))

/-- The full `part_002` manifest rewrite. -/
def rewriteManifestP2 (proxyOrigin baseOrigin basePath text : String) : String :=
  joinLines ((splitLines text).map (rewriteLineP2 proxyOrigin baseOrigin basePath))

/-! ## JSON values and the upstream response payloads -/

/-- Parsed JSON values as returned by `response.json()`, restricted to the
shapes the auth and resolve endpoints emit (null, strings, arrays,
objects). -/
inductive JsonVal where
  | null
  | str (s : String)
  | arr (elems : List JsonVal)
  | obj (fields : List (String × JsonVal))

/-- JS property access `v.name` (and the optional chain `v?.name`):
a field of an object, `undefined` (here `none`) otherwise. -/
def jsonField (j : JsonVal) (name : String) : Option JsonVal :=
  match j with
  | .obj fields => (fields.find? (fun f => f.1 = name)).map (fun f => f.2)
  | _ => none

/-- JS truthiness of a parsed JSON value: `null` and the empty string are
falsy, arrays and objects are truthy. -/
def jsonTruthy : JsonVal → Bool
  | .null => false
  | .str s => s ≠ ""
  | .arr _ => true
  | .obj _ => true

mutual

/-- JS string coercion of a parsed JSON value (as applied by `fetch` to a
non-string argument). -/
def jsToString : JsonVal → String
  | .null => "null"
  | .str s => s
  | .obj _ => "[object Object]"
  | .arr l => jsArrJoin l

def jsArrElem : JsonVal → String
  | .null => ""
  | .str s => s
  | .obj _ => "[object Object]"
  | .arr l => jsArrJoin l

def jsArrJoin : List JsonVal → String
  | [] => ""
  | [x] => jsArrElem x
  | x :: xs => jsArrElem x ++ "," ++ jsArrJoin xs

end

/-- The resolve-payload parsing of `resolveVavooUrl` (lines 163-169 of
`vavoo-stream-v2/route.ts`): a non-empty array whose first element has a
truthy `url` field, else an object with a truthy top-level `url` field
(an array reaching the second test has no `url` property). -/
def extractCdnUrl (result : JsonVal) : Option JsonVal :=
  let firstUrl :=
    match result with
    | .arr (x :: _) =>
      match jsonField x "url" with
      | some v => if jsonTruthy v then some v else none
      | none => none
    | _ => none
  match firstUrl with
  | some v => some v
  | none =>
    match result with
    | .obj _ =>
      match jsonField result "url" with
      | some v => if jsonTruthy v then some v else none
      | none => none
    | _ => none

/-! ## The process-wide caches and the credential / resolver functions -/

/-- A cached signature in `vavoo-stream-v2/route.ts` (`cache.signature`). -/
structure SigEntry where
  sig : JsonVal
  exp : Nat

/-- A cached resolved CDN URL in `vavoo-stream-v2/route.ts`
(`cache.cdnUrls`). -/
structure CdnEntry where
  url : JsonVal
  exp : Nat

/-- The process-wide cache of `vavoo-stream-v2/route.ts` (lines 7-10); the
`Map` is modelled as an association list in insertion order. -/
structure CacheState where
  signature : Option SigEntry
  cdnUrls : List (String × CdnEntry)

/-- `cleanExpiredCache` (lines 13-23): drop the signature and any CDN
entries whose expiry lies strictly in the past. -/
def cleanExpiredCache (now : Nat) (st : CacheState) : CacheState :=
  ⟨match st.signature with
    | some e => if e.exp < now then none else some e
    | none => none,
   st.cdnUrls.filter (fun kv => !(kv.2.exp < now))⟩

/-- Model of JS `Map.prototype.set`: update in place if the key exists,
else append. -/
def mapSet (k : String) (v : CdnEntry) (l : List (String × CdnEntry)) :
    List (String × CdnEntry) :=
  if (l.lookup k).isSome then
    l.map (fun kv => if kv.1 = k then (k, v) else kv)
  else l ++ [(k, v)]

/-- `true` for an HTTP success status (JS `response.ok`). -/
def isOkStatus (s : Nat) : Bool :=
  200 ≤ s && s ≤ 299

/-- A network interaction outcome: either an HTTP response (status and
parsed JSON body) or a thrown exception. -/
abbrev NetResp := Except Unit (Nat × JsonVal)

/-- `getVavooSignature` of `vavoo-stream-v2/route.ts` (lines 26-125).
`now` is the time at the cache check, `now2` the time when the response is
stored; the returned flag records whether the network was consulted.  The
falsy results (`undefined` missing field, empty string) are collapsed to
`none`, which is how every caller treats them. -/
def getVavooSignatureV2 (st : CacheState) (now : Nat) (pingResp : NetResp)
    (now2 : Nat) : Option JsonVal × CacheState × Bool :=
  let st1 := cleanExpiredCache now st
  let hit :=
    match st1.signature with
    | some e => if now < e.exp then some e.sig else none
    | none => none
  match hit with
  | some s => (some s, st1, false)
  | none =>
    match pingResp with
    | .error _ => (none, st1, true)
    | .ok (status, body) =>
      if isOkStatus status = false then (none, st1, true)
      else
        let sigv :=
          match jsonField body "addonSig" with
          | some v => if jsonTruthy v then some v else none
          | none => none
        match sigv with
        | some v => (some v, ⟨some ⟨v, now2 + 3600000⟩, st1.cdnUrls⟩, true)
        | none => (none, st1, true)

/-- `resolveVavooUrl` of `vavoo-stream-v2/route.ts` (lines 128-186). -/
def resolveVavooUrlV2 (vavooUrl : String) (st : CacheState) (now : Nat)
    (resolveResp : NetResp) (now2 : Nat) : Option JsonVal × CacheState × Bool :=
  let st1 := cleanExpiredCache now st
  let hit :=
    match st1.cdnUrls.lookup vavooUrl with
    | some e => if now < e.exp then some e.url else none
    | none => none
  match hit with
  | some u => (some u, st1, false)
  | none =>
    match resolveResp with
    | .error _ => (none, st1, true)
    | .ok (status, body) =>
      if isOkStatus status = false then (none, st1, true)
      else
        match extractCdnUrl body with
        | some v =>
          (some v, ⟨st1.signature, mapSet vavooUrl ⟨v, now2 + 1800000⟩ st1.cdnUrls⟩, true)
        | none => (none, st1, true)

/-- The signature cache of `stream/route.ts` (`cachedSignature`,
line 7). -/
structure SigTS where
  sig : JsonVal
  timestamp : Nat

/-- `getVavooSignature` of `stream/route.ts` (lines 10-106): the cache
check compares the entry age against the one-hour
`SIGNATURE_CACHE_DURATION`, and a fresh signature is stored with the
issuance timestamp. -/
def getVavooSignatureStream (c : Option SigTS) (now : Nat) (pingResp : NetResp)
    (now2 : Nat) : Option JsonVal × Option SigTS × Bool :=
  let hit :=
    match c with
    | some e => if now - e.timestamp < 3600000 then some e.sig else none
    | none => none
  match hit with
  | some s => (some s, c, false)
  | none =>
    match pingResp with
    | .error _ => (none, c, true)
    | .ok (status, body) =>
      if isOkStatus status = false then (none, c, true)
      else
        let sigv :=
          match jsonField body "addonSig" with
          | some v => if jsonTruthy v then some v else none
          | none => none
        match sigv with
        | some v => (some v, some ⟨v, now2⟩, true)
        | none => (none, c, true)

/-! ## The relay GET handlers -/

/-- Outcome of one upstream content fetch: a response (status, content
type, body text, post-redirect `response.url`), a timeout abort, or
another thrown value.  `timeout` is a thrown `AbortError` — a `DOMException`,
hence an `Error` instance whose `name` is `AbortError` — carrying its
runtime-defined message; `netError` is any other thrown value, with
whether it is an `Error` instance and, if so, its message. -/
inductive FetchOutcome where
  | ok (status : Nat) (contentType : String) (body : String) (responseUrl : String)
  | timeout (msg : String)
  | netError (isError : Bool) (msg : String)

/-- Body of a relay response: a JSON error object, a rewritten manifest, or
the upstream bytes streamed through. -/
inductive RelayBody where
  | jsonError (msg : String)
  | manifest (text : String)
  | passthrough
deriving DecidableEq, Repr

/-- A relay response (status and body kind). -/
structure RelayResult where
  status : Nat
  body : RelayBody
deriving DecidableEq, Repr

/-- One outbound content fetch issued by a handler, with the identity
headers it carried. -/
structure FetchCall where
  url : String
  userAgent : String
  sig : Option JsonVal
  range : Option String

/-- The device-emulation user agent (`VAVOO/2.6`). -/
def vavooUA : String := "VAVOO/2.6"

/-- The browser-emulation user agent used for CDN fetches and 403
retries. -/
def browserUA : String :=
  "Mozilla/5.0 (Linux; Android 13) AppleWebKit/537.36 (KHTML, like Gecko) Chrome/120.0.0.0 Mobile Safari/537.36"

/-- The fetch-and-respond phase of the `vavoo-stream-v2` GET handler
(lines 273-399): issue the content fetch, on an aborted fetch answer 504
`Request timeout` and on another thrown value 500 with the error's message
(`Stream error` when the thrown value is not an `Error` instance); on a
non-ok, non-206 status perform the
single 403 retry with browser identity for non-manifest URLs; classify the
body as playlist or segment; rewrite playlists against `new URL(finalUrl)`
(`response.url` is not consulted). -/
def fetchPhaseV2 (reqOrigin mode targetUrl finalUrl ua : String)
    (sigHeader : Option JsonVal) (range : Option String) (st : CacheState)
    (fetchMain fetchRetry : FetchOutcome) :
    RelayResult × CacheState × List FetchCall :=
  let call1 : FetchCall := ⟨finalUrl, ua, sigHeader, range⟩
  match fetchMain with
  | .timeout _ => (⟨504, .jsonError "Request timeout"⟩, st, [call1])
  | .netError isErr msg =>
    (⟨500, .jsonError (if isErr then msg else "Stream error")⟩, st, [call1])
  | .ok status contentType body _ =>
    if isOkStatus status = false ∧ status ≠ 206 then
      if containsStr finalUrl ".m3u8" = false ∧ status = 403 then
        let call2 : FetchCall := ⟨finalUrl, browserUA, none, none⟩
        match fetchRetry with
        | .ok rstatus _ _ _ =>
          if isOkStatus rstatus = true ∨ rstatus = 206 then
            (⟨rstatus, .passthrough⟩, st, [call1, call2])
          else
            (⟨status, .jsonError ("Fetch error: " ++ toString status)⟩, st, [call1, call2])
        | .timeout _ => (⟨504, .jsonError "Request timeout"⟩, st, [call1, call2])
        | .netError isErr msg =>
          (⟨500, .jsonError (if isErr then msg else "Stream error")⟩, st, [call1, call2])
      else
        (⟨status, .jsonError ("Fetch error: " ++ toString status)⟩, st, [call1])
    else
      if containsStr contentType "mpegurl" = true ∨ containsStr contentType "m3u8" = true ∨
          containsStr finalUrl ".m3u8" = true ∨ containsStr targetUrl ".m3u8" = true then
        match parseURL finalUrl with
        | some base =>
          (⟨200, .manifest (rewriteManifestV2 reqOrigin mode (originOf base)
            (basePathOf base) body)⟩, st, [call1])
        | none => (⟨500, .jsonError "Stream error"⟩, st, [call1])
      else
        (⟨status, .passthrough⟩, st, [call1])

/-- The GET handler of `vavoo-stream-v2/route.ts` (lines 198-400).
`urlParam` and `modeParam` are the raw query parameters as produced by
`searchParams.get` (already form-decoded), `now`/`now2` the clock readings,
`pingResp`/`resolveResp` the auth and resolve network oracles, and
`fetchMain`/`fetchRetry` the content fetch oracles.  Returns the response,
the final cache state, and the list of content fetches issued. -/
def GETv2 (reqOrigin : String) (urlParam modeParam range : Option String)
    (st : CacheState) (now now2 : Nat) (pingResp resolveResp : NetResp)
    (fetchMain fetchRetry : FetchOutcome) :
    RelayResult × CacheState × List FetchCall :=
  match urlParam with
  | none => (⟨400, .jsonError "URL required"⟩, st, [])
  | some url =>
    if url = "" then (⟨400, .jsonError "URL required"⟩, st, [])
    else
      let mode :=
        match modeParam with
        | some m => if m = "" then "standard" else m
        | none => "standard"
      match decodeURIComponent url with
      | none => (⟨500, .jsonError "URI malformed"⟩, st, [])
      | some targetUrl =>
        match parseURL targetUrl with
        | none => (⟨400, .jsonError "Invalid URL"⟩, st, [])
        | some _ =>
          let isVavoo := isVavooUrl targetUrl
          if mode = "cdn" then
            if isVavoo = true then
              match getVavooSignatureV2 st now pingResp now2 with
              | (none, st1, _) => (⟨502, .jsonError "Auth failed"⟩, st1, [])
              | (some _, st1, _) =>
                match resolveVavooUrlV2 targetUrl st1 now resolveResp now2 with
                | (none, st2, _) => (⟨502, .jsonError "CDN resolve failed"⟩, st2, [])
                | (some cdn, st2, _) =>
                  fetchPhaseV2 reqOrigin mode targetUrl (jsToString cdn) vavooUA
                    none range st2 fetchMain fetchRetry
            else
              fetchPhaseV2 reqOrigin mode targetUrl targetUrl browserUA
                none range st fetchMain fetchRetry
          else if mode = "auth" then
            if isVavoo = true then
              match getVavooSignatureV2 st now pingResp now2 with
              | (sigOpt, st1, _) =>
                fetchPhaseV2 reqOrigin mode targetUrl targetUrl vavooUA
                  sigOpt range st1 fetchMain fetchRetry
            else
              fetchPhaseV2 reqOrigin mode targetUrl targetUrl vavooUA
                none range st fetchMain fetchRetry
          else
            if isVavoo = true then
              fetchPhaseV2 reqOrigin mode targetUrl targetUrl vavooUA
                none range st fetchMain fetchRetry
            else
              fetchPhaseV2 reqOrigin mode targetUrl targetUrl browserUA
                none range st fetchMain fetchRetry

/-- The GET handler of `stream/route.ts` (lines 108-241): always obtains a
signature first (attaching it when available), fetches the target with the
device identity, and rewrites playlists against `new URL(targetUrl)` — the
original target, not `response.url`.  Its catch-all has no `AbortError`
case: every thrown value, an abort included, yields 500 with body
`error instanceof Error ? error.message : "Stream error"` — an abort is an
`Error` instance, so its own message is returned.  A throwing
`decodeURIComponent` reaches the same catch-all with the V8 `URIError`
message `URI malformed`. -/
def GETstream (reqOrigin : String) (urlParam range : Option String)
    (c : Option SigTS) (now now2 : Nat) (pingResp : NetResp)
    (fetchMain : FetchOutcome) :
    RelayResult × Option SigTS × List FetchCall :=
  match urlParam with
  | none => (⟨400, .jsonError "URL required"⟩, c, [])
  | some url =>
    if url = "" then (⟨400, .jsonError "URL required"⟩, c, [])
    else
      match decodeURIComponent url with
      | none => (⟨500, .jsonError "URI malformed"⟩, c, [])
      | some targetUrl =>
        match parseURL targetUrl with
        | none => (⟨400, .jsonError "Invalid URL"⟩, c, [])
        | some tparsed =>
          match getVavooSignatureStream c now pingResp now2 with
          | (sigOpt, c1, _) =>
            let call1 : FetchCall := ⟨targetUrl, vavooUA, sigOpt, range⟩
            match fetchMain with
            | .timeout msg => (⟨500, .jsonError msg⟩, c1, [call1])
            | .netError isErr msg =>
              (⟨500, .jsonError (if isErr then msg else "Stream error")⟩, c1, [call1])
            | .ok status contentType body _ =>
              if isOkStatus status = false ∧ status ≠ 206 then
                (⟨status, .jsonError ("Stream error: " ++ toString status)⟩, c1, [call1])
              else
                if containsStr contentType "mpegurl" = true ∨
                    containsStr contentType "m3u8" = true ∨
                    containsStr targetUrl ".m3u8" = true then
                  (⟨200, .manifest (rewriteManifestStream reqOrigin (originOf tparsed)
                    (basePathOf tparsed) body)⟩, c1, [call1])
                else
                  (⟨status, .passthrough⟩, c1, [call1])

/-- The fetch-and-respond phase of the `part_002` GET handler
(lines 41-132): `finalUrl` is `response.url || targetUrl` — the
post-redirect URL — and playlists are rewritten against it.  Its catch-all
has no `AbortError` case: every thrown value, an abort included, yields
500 with body `error instanceof Error ? error.message : "Stream error"`,
so an abort returns its own message. -/
def p2FetchPhase (reqOrigin targetUrl ua : String) (range : Option String)
    (fetchMain : FetchOutcome) : RelayResult × List FetchCall :=
  let call1 : FetchCall := ⟨targetUrl, ua, none, range⟩
  match fetchMain with
  | .timeout msg => (⟨500, .jsonError msg⟩, [call1])
  | .netError isErr msg =>
    (⟨500, .jsonError (if isErr then msg else "Stream error")⟩, [call1])
  | .ok status contentType body responseUrl =>
    if isOkStatus status = false ∧ status ≠ 206 then
      (⟨status, .jsonError ("Stream error: " ++ toString status)⟩, [call1])
    else
      let finalUrl := if responseUrl = "" then targetUrl else responseUrl
      if containsStr contentType "mpegurl" = true ∨ containsStr contentType "m3u8" = true ∨
          containsStr targetUrl ".m3u8" = true ∨ containsStr finalUrl ".m3u8" = true then
        match parseURL finalUrl with
        | some base =>
          (⟨200, .manifest (rewriteManifestP2 reqOrigin (originOf base)
            (basePathOf base) body)⟩, [call1])
        | none => (⟨500, .jsonError "Stream error"⟩, [call1])
      else
        (⟨status, .passthrough⟩, [call1])

/-- The GET handler of `unnamed/part_002` (lines 5-141): no auth and no
modes; optional `ua` and `referer` query parameters select the outbound
identity.  An unparseable referer makes `new URL(referer)` throw a
`TypeError` inside the handler, so the catch-all yields 500 with that
error's message — `Invalid URL` in the Node and edge runtimes' WHATWG URL
implementation.  A throwing `decodeURIComponent` likewise yields 500 with
the V8 `URIError` message `URI malformed`. -/
def GETp2 (reqOrigin : String) (urlParam uaParam refererParam range : Option String)
    (fetchMain : FetchOutcome) : RelayResult × List FetchCall :=
  match urlParam with
  | none => (⟨400, .jsonError "URL required"⟩, [])
  | some url =>
    if url = "" then (⟨400, .jsonError "URL required"⟩, [])
    else
      match decodeURIComponent url with
      | none => (⟨500, .jsonError "URI malformed"⟩, [])
      | some targetUrl =>
        match parseURL targetUrl with
        | none => (⟨400, .jsonError "Invalid URL"⟩, [])
        | some _ =>
          let ua :=
            match uaParam with
            | some s => if s = "" then vavooUA else s
            | none => vavooUA
          let referer :=
            match refererParam with
            | some s => s
            | none => ""
          if referer = "" then p2FetchPhase reqOrigin targetUrl ua range fetchMain
          else
            match parseURL referer with
            | some _ => p2FetchPhase reqOrigin targetUrl ua range fetchMain
            | none => (⟨500, .jsonError "Invalid URL"⟩, [])

/-! ## Query-string parsing (model of `URLSearchParams` lookup) -/

/-- The query string of a URL: everything after the first `?` (empty when
there is none). -/
def queryOf (s : String) : String :=
  String.mk ((s.data.dropWhile (fun c => !(c = '?'))).drop 1)

/-- The name part of one `name=value` query pair. -/
def pairName (pair : List Char) : List Char :=
  pair.takeWhile (fun c => !(c = '='))

/-- The value part of one `name=value` query pair (empty when there is no
`=`). -/
def pairValue (pair : List Char) : List Char :=
  (pair.drop (pairName pair).length).drop 1

/-- The raw (still percent-encoded) value of the first query pair with the
given literal name. -/
def rawParamValue (query name : String) : Option String :=
  ((splitChar '&' query.data).find? (fun pair => pairName pair = name.data)).map
    (fun pair => String.mk (pairValue pair))

/-- Model of `searchParams.get(name)` for the literal parameter names this
service uses: the raw value of the first matching pair, form-decoded.  (The
WHATWG parser replaces malformed escapes leniently; the handlers only meet
well-formed values, where the two agree.) -/
def searchParamsGet (query name : String) : Option String :=
  (rawParamValue query name).bind formDecodeValue

/-- The target recovery of the relay GET handlers (`vavoo-stream-v2`
lines 200-207, `stream` lines 110-115) applied to a relay query string:
`searchParams.get("url")` performs one percent-decode and the explicit
`decodeURIComponent` a second one. -/
def recoverTarget (query : String) : Option String :=
  (searchParamsGet query "url").bind decodeURIComponent

/-! ## Support lemmas -/

theorem lookup_mem {l : List (String × CdnEntry)} {k : String} {v : CdnEntry}
    (h : l.lookup k = some v) : (k, v) ∈ l := by
  induction l with
  | nil => cases h
  | cons kv rest ih =>
    rw [List.lookup] at h
    cases hk : k == kv.1 with
    | true =>
      rw [hk] at h
      have h2 : some kv.2 = some v := h
      have hv : kv.2 = v := by injection h2
      have hke : k = kv.1 := eq_of_beq hk
      rw [hke, ← hv]
      exact List.mem_cons_self kv rest
    | false =>
      rw [hk] at h
      have h2 : rest.lookup k = some v := h
      exact List.mem_cons_of_mem kv (ih h2)

/-- Entry containment between cache states: every entry of `a` is already
in `b` with the same value. -/
def cacheEntriesSub (a b : CacheState) : Prop :=
  (∀ e, a.signature = some e → b.signature = some e) ∧
  (∀ k v, (k, v) ∈ a.cdnUrls → (k, v) ∈ b.cdnUrls)

theorem cacheEntriesSub_clean (now : Nat) (st : CacheState) :
    cacheEntriesSub (cleanExpiredCache now st) st := by
  constructor
  · intro e he
    have hrfl : (cleanExpiredCache now st).signature =
        match st.signature with
        | some e2 => if e2.exp < now then none else some e2
        | none => none := rfl
    rw [hrfl] at he
    match hs : st.signature with
    | some e2 =>
      rw [hs] at he
      have he2 : (if e2.exp < now then none else some e2) = some e := he
      by_cases hexp : e2.exp < now
      · rw [if_pos hexp] at he2
        cases he2
      · rw [if_neg hexp] at he2
        exact he2
    | none =>
      rw [hs] at he
      cases he
  · intro k v hm
    have hrfl : (cleanExpiredCache now st).cdnUrls =
        st.cdnUrls.filter (fun kv => !(kv.2.exp < now)) := rfl
    rw [hrfl] at hm
    exact (List.mem_filter.mp hm).1

theorem isVavooUrl_parse {t : String} (h : isVavooUrl t = true) :
    ∃ p, parseURL t = some p := by
  unfold isVavooUrl at h
  match hp : parseURL t with
  | some p => exact ⟨p, rfl⟩
  | none => rw [hp] at h; cases h

theorem parseAfterScheme_path {sec : Bool} {rest : List Char} {p : URLParts}
    (h : parseAfterScheme sec rest = some p) : ∃ r, p.path = '/' :: r := by
  simp only [parseAfterScheme] at h
  split at h
  · cases h
  · split at h
    next h1 h2 h3 heq =>
      cases h
      rw [heq]
      simp [List.takeWhile_cons]
    next =>
      cases h
      exact ⟨[], rfl⟩

theorem parseURL_path {s : String} {p : URLParts} (h : parseURL s = some p) :
    ∃ r, p.path = '/' :: r := by
  unfold parseURL at h
  split_ifs at h
  · exact parseAfterScheme_path h
  · exact parseAfterScheme_path h

theorem splitChar_cons_eq (sep c : Char) (rest g : List Char)
    (gs : List (List Char)) (hsp : splitChar sep rest = g :: gs) :
    splitChar sep (c :: rest) =
      if c = sep then [] :: g :: gs else (c :: g) :: gs := by
  rw [splitChar, hsp]

theorem splitChar_no_sep (sep : Char) (l : List Char) (h : sep ∉ l) :
    splitChar sep l = [l] := by
  induction l with
  | nil => rfl
  | cons c rest ih =>
    have hc : c ≠ sep := fun he => h (by rw [he]; simp)
    have hr : sep ∉ rest := fun hx => h (by simp [hx])
    rw [splitChar_cons_eq sep c rest rest [] (ih hr), if_neg hc]

theorem splitChar_first (sep : Char) (xs ys : List Char) (h : sep ∉ xs) :
    splitChar sep (xs ++ sep :: ys) = xs :: splitChar sep ys := by
  induction xs with
  | nil =>
    rw [List.nil_append]
    match hsp : splitChar sep ys with
    | [] => exact absurd hsp (splitChar_ne_nil sep ys)
    | g :: gs =>
      rw [splitChar_cons_eq sep sep ys g gs hsp, if_pos rfl]
  | cons c rest ih =>
    have hc : c ≠ sep := fun he => h (by rw [he]; simp)
    have hr : sep ∉ rest := fun hx => h (by simp [hx])
    rw [List.cons_append]
    match hsp : splitChar sep (rest ++ sep :: ys) with
    | [] => exact absurd hsp (splitChar_ne_nil sep _)
    | g :: gs =>
      rw [splitChar_cons_eq sep c _ g gs hsp, if_neg hc]
      rw [ih hr] at hsp
      cases hsp
      rfl

theorem splitChar_two_le (sep : Char) (l : List Char) (h : sep ∈ l) :
    2 ≤ (splitChar sep l).length := by
  induction l with
  | nil => cases h
  | cons c rest ih =>
    rcases List.mem_cons.mp h with hc | hr
    · match hsp : splitChar sep rest with
      | [] => exact absurd hsp (splitChar_ne_nil sep rest)
      | g :: gs =>
        rw [splitChar_cons_eq sep c rest g gs hsp, if_pos hc.symm]
        simp
    · match hsp : splitChar sep rest with
      | [] => exact absurd hsp (splitChar_ne_nil sep rest)
      | g :: gs =>
        have h2 := ih hr
        rw [hsp] at h2
        rw [splitChar_cons_eq sep c rest g gs hsp]
        by_cases hc : c = sep
        · rw [if_pos hc]
          simp
        · rw [if_neg hc]
          simpa using h2

theorem takeWhile_all_append (f : Char → Bool) (xs ys : List Char)
    (h : ∀ x ∈ xs, f x = true) :
    (xs ++ ys).takeWhile f = xs ++ ys.takeWhile f := by
  induction xs with
  | nil => simp
  | cons c rest ih =>
    rw [List.cons_append, List.takeWhile_cons, if_pos (h c (by simp)),
      ih (fun x hx => h x (by simp [hx]))]
    rfl

theorem dropWhile_all_append (f : Char → Bool) (xs ys : List Char)
    (h : ∀ x ∈ xs, f x = true) :
    (xs ++ ys).dropWhile f = ys.dropWhile f := by
  induction xs with
  | nil => simp
  | cons c rest ih =>
    rw [List.cons_append, List.dropWhile_cons, if_pos (h c (by simp)),
      ih (fun x hx => h x (by simp [hx]))]

/-- The spec's description of dirname: the path up to and including its
last slash, i.e. the trailing segment removed with the trailing slash
preserved. -/
def specDirname (p : String) : String :=
  String.mk ((p.data.reverse.dropWhile (fun c => !(c = '/'))).reverse)

theorem basePath_step (c : Char) (rest : List Char) (h : '/' ∈ rest) :
    joinChar '/' ((splitChar '/' (c :: rest)).dropLast) ++ ['/'] =
      c :: (joinChar '/' ((splitChar '/' rest).dropLast) ++ ['/']) := by
  match hsp : splitChar '/' rest with
  | [] => exact absurd hsp (splitChar_ne_nil '/' rest)
  | g :: gs =>
    have hgs : gs ≠ [] := by
      have h2 := splitChar_two_le '/' rest h
      rw [hsp] at h2
      intro he
      rw [he] at h2
      simp at h2
    rw [splitChar_cons_eq '/' c rest g gs hsp]
    by_cases hc : c = '/'
    · subst hc
      rw [if_pos rfl, List.dropLast_cons_of_ne_nil (by simp),
        List.dropLast_cons_of_ne_nil hgs]
      match hgl : gs.dropLast with
      | [] => rfl
      | t :: ts => rfl
    · rw [if_neg hc, List.dropLast_cons_of_ne_nil hgs, List.dropLast_cons_of_ne_nil hgs]
      match hgl : gs.dropLast with
      | [] => rfl
      | t :: ts => rfl

theorem dirname_step (c : Char) (rest : List Char) (h : '/' ∈ rest) :
    ((c :: rest).reverse.dropWhile (fun x => !(x = '/'))).reverse =
      c :: (rest.reverse.dropWhile (fun x => !(x = '/'))).reverse := by
  rw [List.reverse_cons]
  have hne : rest.reverse.dropWhile (fun x => !(x = '/')) ≠ [] := by
    rw [Ne, List.dropWhile_eq_nil_iff]
    intro hall
    have := hall '/' (by simp [h])
    simp at this
  rw [List.dropWhile_append, if_neg (by simpa using hne)]
  rw [List.reverse_append]
  rfl

/-- The handlers' `split('/')` / `pop()` / `join('/') + '/'` base-path
computation agrees with the spec's dirname on every pathname (which always
contains a slash). -/
theorem basePath_eq_dirname (p : List Char) (hp : '/' ∈ p) :
    joinChar '/' ((splitChar '/' p).dropLast) ++ ['/'] =
      (p.reverse.dropWhile (fun c => !(c = '/'))).reverse := by
  induction p with
  | nil => cases hp
  | cons c rest ih =>
    by_cases hr : '/' ∈ rest
    · rw [basePath_step c rest hr, dirname_step c rest hr, ih hr]
    · have hc : c = '/' := by
        rcases List.mem_cons.mp hp with h | h
        · exact h.symm
        · exact absurd h hr
      subst hc
      rw [splitChar_cons_eq '/' '/' rest rest [] (splitChar_no_sep '/' rest hr),
        if_pos rfl]
      rw [List.reverse_cons, dropWhile_all_append _ _ _ ?hall]
      case hall =>
        intro x hx
        rw [List.mem_reverse] at hx
        have : x ≠ '/' := fun he => hr (he ▸ hx)
        simp [this]
      rfl

/-- `basePathOf` computes the spec's dirname of the pathname. -/
theorem basePathOf_eq_specDirname {s : String} {p : URLParts}
    (h : parseURL s = some p) : basePathOf p = specDirname (pathnameOf p) := by
  obtain ⟨r, hr⟩ := parseURL_path h
  unfold basePathOf specDirname pathnameOf
  rw [stringMk_data]
  exact congrArg String.mk (basePath_eq_dirname p.path (by rw [hr]; simp))

theorem pairName_url (encd : List Char) :
    pairName ('u' :: 'r' :: 'l' :: '=' :: encd) = ['u', 'r', 'l'] := by
  simp [pairName, List.takeWhile_cons]

theorem pairValue_url (encd : List Char) :
    pairValue ('u' :: 'r' :: 'l' :: '=' :: encd) = encd := by
  simp [pairValue, pairName_url]

/-- Percent-encoded values contain no `&`. -/
theorem amp_not_mem_encGen (keep : Char → Bool) (plus : Bool) (l : List Char)
    (hk : keep '&' = false) : '&' ∉ encGen keep plus l := by
  intro hmem
  rcases mem_encGen keep plus l '&' hmem with h | h | h | h | h
  · rw [hk] at h
    cases h
  · cases h
  · cases h
  · revert h
    decide
  · revert h
    decide

/-- Extracting the `url` parameter from a query of the shape
`url=<enc><suffix>` where `<enc>` is `&`-free and `<suffix>` is empty or
begins with `&`. -/
theorem rawParamValue_url (enc suffix : String) (henc : '&' ∉ enc.data)
    (hsuf : suffix = "" ∨ ∃ t, suffix.data = '&' :: t) :
    rawParamValue ("url=" ++ enc ++ suffix) "url" = some enc := by
  unfold rawParamValue
  have hdata : ("url=" ++ enc ++ suffix).data =
      'u' :: 'r' :: 'l' :: '=' :: (enc.data ++ suffix.data) := by
    rw [String.data_append, String.data_append]
    rfl
  rw [hdata]
  have hno : '&' ∉ ('u' :: 'r' :: 'l' :: '=' :: enc.data) := by
    intro hx
    rcases List.mem_cons.mp hx with h | hx
    · cases h
    rcases List.mem_cons.mp hx with h | hx
    · cases h
    rcases List.mem_cons.mp hx with h | hx
    · cases h
    rcases List.mem_cons.mp hx with h | hx
    · cases h
    exact henc hx
  rcases hsuf with rfl | ⟨t, ht⟩
  · have he : ('u' :: 'r' :: 'l' :: '=' :: (enc.data ++ ("" : String).data)) =
        'u' :: 'r' :: 'l' :: '=' :: enc.data := by
      simp
    rw [he, splitChar_no_sep '&' _ hno]
    rw [List.find?_cons_of_pos _ (by simp [pairName_url])]
    simp [pairValue_url, stringMk_data]
  · have he : ('u' :: 'r' :: 'l' :: '=' :: (enc.data ++ suffix.data)) =
        ('u' :: 'r' :: 'l' :: '=' :: enc.data) ++ '&' :: t := by
      rw [ht]
      simp
    rw [he, splitChar_first '&' _ t hno]
    rw [List.find?_cons_of_pos _ (by simp [pairName_url])]
    simp [pairValue_url, stringMk_data]

/-- Extracting the query string from a relay line whose prefix before the
first `?` is `?`-free. -/
theorem queryOf_append (a b : String) (ha : '?' ∉ a.data) :
    queryOf (a ++ "?" ++ b) = b := by
  unfold queryOf
  have hdata : (a ++ "?" ++ b).data = a.data ++ '?' :: b.data := by
    rw [String.data_append, String.data_append, List.append_assoc]
    rfl
  rw [hdata, dropWhile_all_append _ _ _ ?hall]
  case hall =>
    intro x hx
    have : x ≠ '?' := fun he => ha (he ▸ hx)
    simp [this]
  rw [List.dropWhile_cons, if_neg (by simp)]
  rw [List.drop_one, List.tail_cons, stringMk_data]

/-! ## The claims -/

/-- **C1** (code bug).  The base URL used to resolve manifest references is
required to be the final URL after any upstream redirect.  At a request for
`https://a.example/x/index.m3u8` whose upstream fetch follows a redirect
and ends at `https://cdn.example/path/live/index.m3u8`
(`response.url`), the `stream/route.ts` handler and the `vavoo-stream-v2`
handler both resolve the reference line `seg1.ts` against the pre-redirect
directory `https://a.example/x/`, while the `part_002` handler resolves it
against the post-redirect directory `https://cdn.example/path/live/` as
the property demands; the two targets differ. -/
theorem claimC1_redirect_base :
    (GETstream "http://proxy.local" (some "https://a.example/x/index.m3u8") none none 0 0
        (.error ()) (.ok 200 "application/vnd.apple.mpegurl" "seg1.ts"
          "https://cdn.example/path/live/index.m3u8")).1 =
      ⟨200, .manifest ("http://proxy.local/api/vavoo-stream-v2?url=" ++
        encodeURIComponent "https://a.example/x/seg1.ts" ++ "&mode=standard")⟩ ∧
    (GETv2 "http://proxy.local" (some "https://a.example/x/index.m3u8") none none ⟨none, []⟩ 0 0
        (.error ()) (.error ())
        (.ok 200 "application/vnd.apple.mpegurl" "seg1.ts"
          "https://cdn.example/path/live/index.m3u8") (.netError true "unused")).1 =
      ⟨200, .manifest ("http://proxy.local/api/vavoo-stream-v2?url=" ++
        encodeURIComponent "https://a.example/x/seg1.ts")⟩ ∧
    (GETp2 "http://proxy.local" (some "https://a.example/x/index.m3u8") none none none
        (.ok 200 "application/vnd.apple.mpegurl" "seg1.ts"
          "https://cdn.example/path/live/index.m3u8")).1 =
      ⟨200, .manifest ("http://proxy.local/api/stream?url=" ++
        formValueEncode (encodeURIComponent "https://cdn.example/path/live/seg1.ts"))⟩ ∧
    ("https://a.example/x/seg1.ts" : String) ≠ "https://cdn.example/path/live/seg1.ts" := by
  refine ⟨rfl, rfl, rfl, by decide⟩

/-- **C3.** Every line that after trimming is empty or starts with `#` is
passed through byte-identical, at its own position, by both manifest
rewriters (`vavoo-stream-v2` and `stream`). -/
theorem claimC3_comment_passthrough (proxyOrigin mode baseOrigin basePath text : String)
    (i : Nat) (h : i < (splitLines text).length)
    (h2 : i < ((splitLines text).map
      (rewriteLineV2 proxyOrigin mode baseOrigin basePath)).length)
    (h3 : i < ((splitLines text).map
      (rewriteLineStream proxyOrigin baseOrigin basePath)).length)
    (hcond : jsTrim ((splitLines text).get ⟨i, h⟩) = "" ∨
      startsWithStr (jsTrim ((splitLines text).get ⟨i, h⟩)) "#" = true) :
    ((splitLines text).map (rewriteLineV2 proxyOrigin mode baseOrigin basePath)).get
        ⟨i, h2⟩ = (splitLines text).get ⟨i, h⟩ ∧
    ((splitLines text).map (rewriteLineStream proxyOrigin baseOrigin basePath)).get
        ⟨i, h3⟩ = (splitLines text).get ⟨i, h⟩ := by
  simp only [List.get_eq_getElem] at hcond
  constructor
  · rw [List.get_map]
    rcases hcond with hc | hc
    · simp [rewriteLineV2, hc]
    · simp [rewriteLineV2, hc]
  · rw [List.get_map]
    rcases hcond with hc | hc
    · simp [rewriteLineStream, hc]
    · simp [rewriteLineStream, hc]

/-- Witness for C3 at a concrete manifest: the tag line `  #EXTM3U` (with
leading whitespace) is returned unmodified at index 0. -/
theorem claimC3_comment_passthrough_witness :
    ((splitLines "  #EXTM3U\nseg.ts").map
      (rewriteLineV2 "http://proxy.local" "cdn" "https://cdn.example" "/live/")).get
        ⟨0, by decide⟩ = (splitLines "  #EXTM3U\nseg.ts").get ⟨0, by decide⟩ ∧
    ((splitLines "  #EXTM3U\nseg.ts").map
      (rewriteLineStream "http://proxy.local" "https://cdn.example" "/live/")).get
        ⟨0, by decide⟩ = (splitLines "  #EXTM3U\nseg.ts").get ⟨0, by decide⟩ :=
  claimC3_comment_passthrough "http://proxy.local" "cdn" "https://cdn.example" "/live/"
    "  #EXTM3U\nseg.ts" 0 (by decide) (by decide) (by decide) (Or.inr (by decide))

/-- **C4.** Reference resolution follows exactly the three documented
cases — absolute lines pass through, root-relative lines get the base
origin, and all other lines get origin plus dirname (trailing segment
removed, trailing slash preserved) — and the two concrete examples from the
spec hold. -/
theorem claimC4_resolution_cases :
    (∀ (u : String) (p : URLParts), parseURL u = some p →
      ∀ t : String,
        ((startsWithStr t "http://" = true ∨ startsWithStr t "https://" = true) →
          resolveRef (originOf p) (basePathOf p) t = t) ∧
        (startsWithStr t "http://" = false → startsWithStr t "https://" = false →
          startsWithStr t "/" = true →
          resolveRef (originOf p) (basePathOf p) t = originOf p ++ t) ∧
        (startsWithStr t "http://" = false → startsWithStr t "https://" = false →
          startsWithStr t "/" = false →
          resolveRef (originOf p) (basePathOf p) t =
            originOf p ++ specDirname (pathnameOf p) ++ t)) ∧
    (parseURL "https://cdn.example/path/live/index.m3u8").map
        (fun p => resolveRef (originOf p) (basePathOf p) "seg1.ts") =
      some "https://cdn.example/path/live/seg1.ts" ∧
    (parseURL "https://cdn.example/path/live/index.m3u8").map
        (fun p => resolveRef (originOf p) (basePathOf p) "/abs/seg2.ts") =
      some "https://cdn.example/abs/seg2.ts" := by
  refine ⟨?_, by decide, by decide⟩
  intro u p hp t
  refine ⟨?_, ?_, ?_⟩
  · intro habs
    rcases habs with h | h <;> simp [resolveRef, h]
  · intro h1 h2 h3
    simp [resolveRef, h1, h2, h3]
  · intro h1 h2 h3
    simp [resolveRef, h1, h2, h3, basePathOf_eq_specDirname hp]

theorem string_eq_of_data {a b : String} (h : a.data = b.data) : a = b := by
  cases a
  cases b
  cases h
  rfl

theorem startsWith_append (a b : String) : startsWithStr (a ++ b) a = true := by
  unfold startsWithStr
  rw [String.data_append, List.isPrefixOf_iff_prefix]
  exact List.prefix_append a.data b.data

theorem modeSuffix_shape (mode : String) :
    modeSuffix mode = "" ∨ ∃ t, (modeSuffix mode).data = '&' :: t := by
  unfold modeSuffix
  split_ifs
  · right
    exact ⟨"mode=cdn".data, rfl⟩
  · right
    exact ⟨"mode=auth".data, rfl⟩
  · left
    rfl

theorem parseAfterScheme_host {sec : Bool} {rest : List Char} {p : URLParts}
    (h : parseAfterScheme sec rest = some p) :
    p.host ≠ [] ∧ ∀ c ∈ p.host, (!(c = '/' || c = '?' || c = '#')) = true := by
  simp only [parseAfterScheme] at h
  split at h
  · cases h
  next hne =>
    split at h <;> cases h <;> dsimp only <;>
      exact ⟨hne, fun c hc =>
        @List.mem_takeWhile_imp Char (fun c => !(c = '/' || c = '?' || c = '#')) _ c hc⟩

theorem parseURL_host {s : String} {p : URLParts} (h : parseURL s = some p) :
    p.host ≠ [] ∧ ∀ c ∈ p.host, (!(c = '/' || c = '?' || c = '#')) = true := by
  unfold parseURL at h
  split_ifs at h
  · exact parseAfterScheme_host h
  · exact parseAfterScheme_host h

/-- Appending a slash-initial remainder to a parsed origin always yields a
parseable absolute URL. -/
theorem parseURL_origin_append {s : String} {p : URLParts} (h : parseURL s = some p)
    (rest : String) (r2 : List Char) (hrest : rest.data = '/' :: r2) :
    (parseURL (originOf p ++ rest)).isSome = true := by
  obtain ⟨hne, hmem⟩ := parseURL_host h
  have hafter : ∀ sec : Bool, (parseAfterScheme sec (p.host ++ rest.data)).isSome = true := by
    intro sec
    simp only [parseAfterScheme]
    rw [hrest, takeWhile_all_append _ _ _ hmem, List.takeWhile_cons,
      if_neg (show ¬ ((!(decide ('/' = '/') || decide ('/' = '?') ||
        decide ('/' = '#'))) = true) by decide),
      List.append_nil, if_neg hne, List.drop_left]
    simp
  by_cases hsec : p.secure = true
  · have hdata : (originOf p ++ rest).data = "https://".data ++ (p.host ++ rest.data) := by
      unfold originOf
      rw [hsec, if_pos rfl, String.data_append, String.data_append, List.append_assoc]
    have hsw : startsWithStr (originOf p ++ rest) "https://" = true := by
      unfold startsWithStr
      rw [hdata, List.isPrefixOf_iff_prefix]
      exact List.prefix_append _ _
    unfold parseURL
    rw [if_pos hsw, hdata, List.drop_left' (show ("https://".data).length = 8 from rfl)]
    exact hafter true
  · have hsecf : p.secure = false := by
      cases hp : p.secure
      · rfl
      · exact absurd hp hsec
    have hdata : (originOf p ++ rest).data = "http://".data ++ (p.host ++ rest.data) := by
      unfold originOf
      rw [hsecf, if_neg (by simp), String.data_append, String.data_append, List.append_assoc]
    have hsw1 : startsWithStr (originOf p ++ rest) "https://" = false := by
      unfold startsWithStr
      rw [hdata]
      rfl
    have hsw2 : startsWithStr (originOf p ++ rest) "http://" = true := by
      unfold startsWithStr
      rw [hdata, List.isPrefixOf_iff_prefix]
      exact List.prefix_append _ _
    unfold parseURL
    rw [if_neg (by rw [hsw1]; exact Bool.false_ne_true), if_pos hsw2, hdata,
      List.drop_left' (show ("http://".data).length = 7 from rfl)]
    exact hafter false

/-- The base path of a parsed URL begins with a slash. -/
theorem basePathOf_slash {s : String} {p : URLParts} (h : parseURL s = some p) :
    ∃ r2, (basePathOf p).data = '/' :: r2 := by
  obtain ⟨r, hr⟩ := parseURL_path h
  have hmem : '/' ∈ p.path := by
    rw [hr]
    simp
  have hdata : (basePathOf p).data =
      (p.path.reverse.dropWhile (fun c => !(c = '/'))).reverse := by
    unfold basePathOf
    show joinChar '/' ((splitChar '/' p.path).dropLast) ++ ['/'] = _
    exact basePath_eq_dirname p.path hmem
  have hpre : (p.path.reverse.dropWhile (fun c => !(c = '/'))).reverse <+: p.path := by
    rw [← List.reverse_suffix, List.reverse_reverse]
    exact List.dropWhile_suffix _
  have hnn : p.path.reverse.dropWhile (fun c => !(c = '/')) ≠ [] := by
    rw [Ne, List.dropWhile_eq_nil_iff]
    intro hall
    have := hall '/' (by rw [List.mem_reverse]; exact hmem)
    simp at this
  obtain ⟨t, ht⟩ := hpre
  match hD : (p.path.reverse.dropWhile (fun c => !(c = '/'))).reverse with
  | [] =>
    have hd2 : p.path.reverse.dropWhile (fun c => !(c = '/')) = [] := by
      have := congrArg List.reverse hD
      simpa using this
    exact absurd hd2 hnn
  | c :: cs =>
    rw [hD] at ht
    rw [hr] at ht
    have hc : c = '/' := by
      have := congrArg (fun l => l.headD ' ') ht
      simpa using this
    exact ⟨cs, by rw [hdata, hD, hc]⟩

/-- **C5** (counterexample).  The `part_002` rewriter percent-encodes the
already-encoded absolute URL a second time (`URLSearchParams` value
serialization), so its `url` query parameter, once percent-decoded, is
still a percent-encoded string and not a syntactically valid absolute
URL. -/
theorem claimC5_counterexample :
    rawParamValue (queryOf (rewriteLineP2 "http://proxy.local" "https://cdn.example"
        "/path/live/" "seg1.ts")) "url" =
      some "https%253A%252F%252Fcdn.example%252Fpath%252Flive%252Fseg1.ts" ∧
    decodeURIComponent "https%253A%252F%252Fcdn.example%252Fpath%252Flive%252Fseg1.ts" =
      some "https%3A%2F%2Fcdn.example%2Fpath%2Flive%2Fseg1.ts" ∧
    parseURL "https%3A%2F%2Fcdn.example%2Fpath%2Flive%2Fseg1.ts" = none := by
  refine ⟨by decide, by decide, by decide⟩

/-- **C5** (amended).  For every non-comment, non-blank manifest line, the
`vavoo-stream-v2` and `stream` rewriters produce a line that begins with
the proxy origin followed by the relay path, whose raw `url` query
parameter is the percent-encoded resolved absolute reference, so one
percent-decode recovers that reference exactly; the `part_002` rewriter
encodes the value a second time, so its parameter needs one form-decode to
reach the encoded reference and a further decode to reach the reference.
Whenever the base URL was parsed and the line is not itself
absolute-prefixed, the resolved reference is a syntactically valid
absolute URL. -/
theorem claimC5_amended (proxyOrigin mode baseOrigin basePath line : String)
    (hq : '?' ∉ proxyOrigin.data)
    (hcomment : startsWithStr (jsTrim line) "#" = false)
    (hblank : ¬ (jsTrim line = "")) :
    startsWithStr (rewriteLineV2 proxyOrigin mode baseOrigin basePath line)
        (proxyOrigin ++ "/api/vavoo-stream-v2?") = true ∧
    rawParamValue (queryOf (rewriteLineV2 proxyOrigin mode baseOrigin basePath line))
        "url" = some (encodeURIComponent (resolveRef baseOrigin basePath (jsTrim line))) ∧
    startsWithStr (rewriteLineStream proxyOrigin baseOrigin basePath line)
        (proxyOrigin ++ "/api/vavoo-stream-v2?") = true ∧
    rawParamValue (queryOf (rewriteLineStream proxyOrigin baseOrigin basePath line))
        "url" = some (encodeURIComponent (resolveRef baseOrigin basePath (jsTrim line))) ∧
    decodeURIComponent (encodeURIComponent (resolveRef baseOrigin basePath (jsTrim line))) =
      some (resolveRef baseOrigin basePath (jsTrim line)) ∧
    startsWithStr (rewriteLineP2 proxyOrigin baseOrigin basePath line)
        (proxyOrigin ++ "/api/stream?") = true ∧
    rawParamValue (queryOf (rewriteLineP2 proxyOrigin baseOrigin basePath line)) "url" =
      some (formValueEncode (encodeURIComponent
        (resolveRef baseOrigin basePath (jsTrim line)))) ∧
    formDecodeValue (formValueEncode (encodeURIComponent
        (resolveRef baseOrigin basePath (jsTrim line)))) =
      some (encodeURIComponent (resolveRef baseOrigin basePath (jsTrim line))) ∧
    (∀ (bu : String) (p : URLParts), parseURL bu = some p →
      startsWithStr (jsTrim line) "http://" = false →
      startsWithStr (jsTrim line) "https://" = false →
      (parseURL (resolveRef (originOf p) (basePathOf p) (jsTrim line))).isSome = true) := by
  have hcondF : (startsWithStr (jsTrim line) "#" || jsTrim line = "") = false := by
    simp [hcomment, hblank]
  have henc : '&' ∉ (encodeURIComponent (resolveRef baseOrigin basePath (jsTrim line))).data :=
    amp_not_mem_encGen isUnreservedURI false _ (by decide)
  have henc2 : '&' ∉ (formValueEncode (encodeURIComponent
      (resolveRef baseOrigin basePath (jsTrim line)))).data :=
    amp_not_mem_encGen isFormSafe true _ (by decide)
  have hv2 : rewriteLineV2 proxyOrigin mode baseOrigin basePath line =
      (proxyOrigin ++ "/api/vavoo-stream-v2?") ++
        ("url=" ++ encodeURIComponent (resolveRef baseOrigin basePath (jsTrim line)) ++
          modeSuffix mode) := by
    simp only [rewriteLineV2]
    rw [hcondF, if_neg (show ¬ (false = true) by decide)]
    apply string_eq_of_data
    simp only [String.data_append, List.append_assoc]
    rfl
  have hvs : rewriteLineStream proxyOrigin baseOrigin basePath line =
      (proxyOrigin ++ "/api/vavoo-stream-v2?") ++
        ("url=" ++ encodeURIComponent (resolveRef baseOrigin basePath (jsTrim line)) ++
          "&mode=standard") := by
    simp only [rewriteLineStream]
    rw [hcondF, if_neg (show ¬ (false = true) by decide)]
    apply string_eq_of_data
    simp only [String.data_append, List.append_assoc]
    rfl
  have hvp : rewriteLineP2 proxyOrigin baseOrigin basePath line =
      (proxyOrigin ++ "/api/stream?") ++
        ("url=" ++ formValueEncode (encodeURIComponent
          (resolveRef baseOrigin basePath (jsTrim line))) ++ "") := by
    simp only [rewriteLineP2]
    rw [hcondF, if_neg (show ¬ (false = true) by decide)]
    apply string_eq_of_data
    simp only [String.data_append, List.append_assoc, List.append_nil]
  have heqA : (proxyOrigin ++ "/api/vavoo-stream-v2?") =
      (proxyOrigin ++ "/api/vavoo-stream-v2") ++ "?" := by
    rw [String.append_assoc]
    rfl
  have heqB : (proxyOrigin ++ "/api/stream?") = (proxyOrigin ++ "/api/stream") ++ "?" := by
    rw [String.append_assoc]
    rfl
  have hqa : '?' ∉ (proxyOrigin ++ "/api/vavoo-stream-v2").data := by
    rw [String.data_append]
    intro hx
    rcases List.mem_append.mp hx with hx | hx
    · exact hq hx
    · revert hx
      decide
  have hqb : '?' ∉ (proxyOrigin ++ "/api/stream").data := by
    rw [String.data_append]
    intro hx
    rcases List.mem_append.mp hx with hx | hx
    · exact hq hx
    · revert hx
      decide
  refine ⟨?_, ?_, ?_, ?_, decode_encode_roundTrip _, ?_, ?_,
    formDecode_formEncode_roundTrip _, ?_⟩
  · rw [hv2]
    exact startsWith_append _ _
  · rw [hv2, heqA, queryOf_append _ _ hqa]
    exact rawParamValue_url _ _ henc (modeSuffix_shape mode)
  · rw [hvs]
    exact startsWith_append _ _
  · rw [hvs, heqA, queryOf_append _ _ hqa]
    exact rawParamValue_url _ _ henc (Or.inr ⟨"mode=standard".data, rfl⟩)
  · rw [hvp]
    exact startsWith_append _ _
  · rw [hvp, heqB, queryOf_append _ _ hqb]
    exact rawParamValue_url _ _ henc2 (Or.inl rfl)
  · intro bu p hp h1 h2
    by_cases hsl : startsWithStr (jsTrim line) "/" = true
    · have habs : resolveRef (originOf p) (basePathOf p) (jsTrim line) =
          originOf p ++ jsTrim line := by
        simp [resolveRef, h1, h2, hsl]
      rw [habs]
      have hpre : ("/" : String).data.isPrefixOf (jsTrim line).data = true := hsl
      rw [List.isPrefixOf_iff_prefix] at hpre
      obtain ⟨t2, ht2⟩ := hpre
      refine parseURL_origin_append hp (jsTrim line) t2 ?_
      rw [← ht2]
      rfl
    · have habs : resolveRef (originOf p) (basePathOf p) (jsTrim line) =
          originOf p ++ (basePathOf p ++ jsTrim line) := by
        simp only [resolveRef, h1, h2]
        rw [if_neg (show ¬ ((false || false) = true) by decide)]
        rw [if_neg (by simpa using hsl)]
        rw [String.append_assoc]
      rw [habs]
      obtain ⟨r2, hbp⟩ := basePathOf_slash hp
      refine parseURL_origin_append hp (basePathOf p ++ jsTrim line)
        (r2 ++ (jsTrim line).data) ?_
      rw [String.data_append, hbp]
      rfl

/-- Witness for the amended C5 at the concrete line `seg1.ts`: the
rewritten lines, the extracted parameter values, the decode equations, and
validity of the resolved reference for a concrete parsed base. -/
theorem claimC5_amended_witness :
    startsWithStr (rewriteLineV2 "http://proxy.local" "cdn" "https://cdn.example"
        "/path/live/" "seg1.ts") ("http://proxy.local" ++ "/api/vavoo-stream-v2?") = true ∧
    rawParamValue (queryOf (rewriteLineV2 "http://proxy.local" "cdn" "https://cdn.example"
        "/path/live/" "seg1.ts")) "url" =
      some (encodeURIComponent (resolveRef "https://cdn.example" "/path/live/"
        (jsTrim "seg1.ts"))) ∧
    decodeURIComponent (encodeURIComponent (resolveRef "https://cdn.example" "/path/live/"
        (jsTrim "seg1.ts"))) =
      some (resolveRef "https://cdn.example" "/path/live/" (jsTrim "seg1.ts")) ∧
    rawParamValue (queryOf (rewriteLineP2 "http://proxy.local" "https://cdn.example"
        "/path/live/" "seg1.ts")) "url" =
      some (formValueEncode (encodeURIComponent (resolveRef "https://cdn.example"
        "/path/live/" (jsTrim "seg1.ts")))) ∧
    (parseURL (resolveRef (originOf ⟨true, "cdn.example".data, "/path/live/index.m3u8".data⟩)
        (basePathOf ⟨true, "cdn.example".data, "/path/live/index.m3u8".data⟩)
        (jsTrim "seg1.ts"))).isSome = true := by
  have h := claimC5_amended "http://proxy.local" "cdn" "https://cdn.example" "/path/live/"
    "seg1.ts" (by decide) (by decide) (by decide)
  obtain ⟨c1, c2, _, _, c5, _, c7, _, c9⟩ := h
  exact ⟨c1, c2, c5, c7,
    c9 "https://cdn.example/path/live/index.m3u8"
      ⟨true, "cdn.example".data, "/path/live/index.m3u8".data⟩ (by decide) (by decide)
      (by decide)⟩

/-- Witness for C4: the general case equations applied at a concrete base
URL and relative reference. -/
theorem claimC4_resolution_cases_witness :
    resolveRef (originOf ⟨true, "cdn.example".data, "/a/b.m3u8".data⟩)
        (basePathOf ⟨true, "cdn.example".data, "/a/b.m3u8".data⟩) "x.ts" =
      originOf ⟨true, "cdn.example".data, "/a/b.m3u8".data⟩ ++
        specDirname (pathnameOf ⟨true, "cdn.example".data, "/a/b.m3u8".data⟩) ++ "x.ts" :=
  ((claimC4_resolution_cases.1 "https://cdn.example/a/b.m3u8"
      ⟨true, "cdn.example".data, "/a/b.m3u8".data⟩ (by decide) "x.ts").2.2)
    (by decide) (by decide) (by decide)

/-- A plain percent encoding whose keep set rejects `+` contains no `+`
character, so the form-decoder's `+ → space` pass leaves it unchanged. -/
theorem plus_map_encGen_id (keep : Char → Bool) (hplus : keep '+' = false)
    (l : List Char) :
    (encGen keep false l).map (fun c => if c = '+' then ' ' else c) =
      encGen keep false l := by
  induction l with
  | nil => rfl
  | cons c l ih =>
    unfold encGen at ih ⊢
    rw [List.flatMap_cons, List.map_append, ih]
    congr 1
    unfold encGenChar
    rw [if_neg (show ¬ ((false && c = ' ') = true) by simp)]
    by_cases hk : keep c = true
    · rw [if_pos hk]
      have hne : ¬ (c = '+') := by
        intro h
        rw [h, hplus] at hk
        cases hk
      simp [hne]
    · rw [if_neg hk]
      have hall : ∀ x ∈ (utf8EncodeCp c.toNat).flatMap escByte,
          (if x = '+' then ' ' else x) = id x := by
        intro x hx
        rw [List.mem_flatMap] at hx
        obtain ⟨b, hb, hbx⟩ := hx
        have hb256 : b < 256 := utf8EncodeCp_lt_256 c.toNat (char_toNat_lt c) b hb
        unfold escByte at hbx
        simp only [List.mem_cons, List.mem_singleton, List.not_mem_nil, or_false] at hbx
        rcases hbx with rfl | rfl | rfl
        · rfl
        · have hne : ¬ (hexDig (b / 16) = '+') := by
            intro hEq
            rcases hexDig_toNat (b / 16) (by omega) with h | h <;>
              (rw [hEq] at h; revert h; decide)
          rw [if_neg hne]
          rfl
        · have hne : ¬ (hexDig (b % 16) = '+') := by
            intro hEq
            rcases hexDig_toNat (b % 16) (by omega) with h | h <;>
              (rw [hEq] at h; revert h; decide)
          rw [if_neg hne]
          rfl
      rw [List.map_congr_left hall, List.map_id]

/-- One form-decode (as performed by `searchParams.get`) of an
`encodeURIComponent` output recovers the original string. -/
theorem formDecode_encode (s : String) :
    formDecodeValue (encodeURIComponent s) = some s := by
  unfold formDecodeValue encodeURIComponent
  show (percentDecodeL ((encGen isUnreservedURI false s.data).map
    (fun c => if c = '+' then ' ' else c))).map String.mk = some s
  rw [plus_map_encGen_id isUnreservedURI (by decide) s.data,
    percentDecodeL_encGen isUnreservedURI (by decide) s.data]
  simp [stringMk_data]

/-- **C10**.  The relay GET handlers decode the `url` parameter twice:
`searchParams.get` form-decodes once and the explicit `decodeURIComponent`
decodes again.  For a percent-free absolute target the second decode is
the identity, so the rewritten parameter `url=encodeURIComponent(u)`
round-trips to exactly `u`; for a target containing `%` the second decode
alters it, as the concrete target `https://h/a%41b` shows. -/
theorem claimC10_double_decode :
    (∀ u : String, (parseURL u).isSome = true → '%' ∉ u.data →
      recoverTarget ("url=" ++ encodeURIComponent u) = some u) ∧
    recoverTarget ("url=" ++ encodeURIComponent "https://h/a%41b") =
      some "https://h/aAb" ∧
    ("https://h/aAb" : String) ≠ "https://h/a%41b" := by
  refine ⟨?_, by decide, by decide⟩
  intro u _ hpct
  have henc : '&' ∉ (encodeURIComponent u).data :=
    amp_not_mem_encGen isUnreservedURI false _ (by decide)
  have h0 : ("url=" ++ encodeURIComponent u) = "url=" ++ encodeURIComponent u ++ "" := by
    rw [String.append_empty]
  unfold recoverTarget searchParamsGet
  rw [h0, rawParamValue_url _ "" henc (Or.inl rfl)]
  show (formDecodeValue (encodeURIComponent u)).bind decodeURIComponent = some u
  rw [formDecode_encode u]
  show decodeURIComponent u = some u
  exact decodeURIComponent_no_pct u hpct

/-- Witness for C10: the percent-free round trip at a concrete target. -/
theorem claimC10_double_decode_witness :
    recoverTarget ("url=" ++ encodeURIComponent "https://cdn.example/path/live/seg1.ts") =
      some "https://cdn.example/path/live/seg1.ts" :=
  claimC10_double_decode.1 "https://cdn.example/path/live/seg1.ts" (by decide) (by decide)

/-- `resolveVavooUrl` answers `null` whenever the cache holds no fresh
entry for the target and the response payload yields no usable `url`
field, leaving the cache merely cleaned. -/
theorem resolveVavooUrlV2_fail (vavooUrl : String) (st : CacheState) (now : Nat)
    (rstatus : Nat) (j : JsonVal) (now2 : Nat)
    (hnocache : ∀ e, (vavooUrl, e) ∈ st.cdnUrls → ¬ now < e.exp)
    (hext : extractCdnUrl j = none) :
    resolveVavooUrlV2 vavooUrl st now (.ok (rstatus, j)) now2 =
      (none, cleanExpiredCache now st, true) := by
  dsimp only [resolveVavooUrlV2]
  have hhit : (match (cleanExpiredCache now st).cdnUrls.lookup vavooUrl with
      | some e => if now < e.exp then some e.url else none
      | none => (none : Option JsonVal)) = none := by
    cases hL : (cleanExpiredCache now st).cdnUrls.lookup vavooUrl with
    | none => rfl
    | some e =>
      have hmem2 : (vavooUrl, e) ∈ st.cdnUrls := by
        have hmem := lookup_mem hL
        unfold cleanExpiredCache at hmem
        exact (List.mem_filter.mp hmem).1
      simp [hnocache e hmem2]
  rw [hhit]
  by_cases hok : isOkStatus rstatus = false
  · rw [if_pos hok]
  · rw [if_neg hok, hext]

/-- **C2**.  A `mode=cdn` request for a vavoo.to target whose resolve
payload carries no usable `url` field answers 502 with the JSON error body
`CDN resolve failed`, and the handler issues no content fetch at all — in
particular it never falls back to fetching the indirection URL. -/
theorem claimC2_cdn_resolve_502 (reqOrigin u targetUrl : String)
    (range : Option String) (st : CacheState) (now now2 : Nat)
    (pingResp : NetResp) (rstatus : Nat) (j : JsonVal)
    (fetchMain fetchRetry : FetchOutcome) (s : JsonVal)
    (hne : ¬ (u = ""))
    (hdec : decodeURIComponent u = some targetUrl)
    (hvav : isVavooUrl targetUrl = true)
    (hsig : (getVavooSignatureV2 st now pingResp now2).1 = some s)
    (hnocache : ∀ e,
      (targetUrl, e) ∈ (getVavooSignatureV2 st now pingResp now2).2.1.cdnUrls →
      ¬ now < e.exp)
    (hext : extractCdnUrl j = none) :
    GETv2 reqOrigin (some u) (some "cdn") range st now now2 pingResp
        (.ok (rstatus, j)) fetchMain fetchRetry =
      (⟨502, .jsonError "CDN resolve failed"⟩,
        cleanExpiredCache now (getVavooSignatureV2 st now pingResp now2).2.1, []) := by
  dsimp only [GETv2]
  rw [if_neg hne, if_neg (show ¬ (("cdn" : String) = "") by decide), hdec]
  obtain ⟨p, hp⟩ := isVavooUrl_parse hvav
  dsimp only
  rw [hp]
  dsimp only
  rw [if_pos (show ("cdn" : String) = "cdn" from rfl), hvav,
    if_pos (show (true = true) from rfl)]
  cases hG : getVavooSignatureV2 st now pingResp now2 with
  | mk a rest =>
    cases rest with
    | mk st1 flag =>
      rw [hG] at hsig hnocache
      dsimp only at hsig hnocache
      rw [hsig]
      dsimp only
      rw [resolveVavooUrlV2_fail targetUrl st1 now rstatus j now2 hnocache hext]

/-- Witness for C2: a concrete cached-signature state, a vavoo.to target
absent from the CDN cache, and the resolve payload `{}` produce the 502
and an empty fetch trace. -/
theorem claimC2_cdn_resolve_502_witness :
    GETv2 "http://proxy.local" (some "https://vavoo.to/play/1/index.m3u8") (some "cdn")
        none ⟨some ⟨.str "SIG", 99⟩, []⟩ 5 5 (.ok (200, .null)) (.ok (200, .obj []))
        (.netError true "unused") (.netError true "unused") =
      (⟨502, .jsonError "CDN resolve failed"⟩,
        cleanExpiredCache 5
          (getVavooSignatureV2 ⟨some ⟨.str "SIG", 99⟩, []⟩ 5 (.ok (200, .null)) 5).2.1,
        []) := by
  refine claimC2_cdn_resolve_502 "http://proxy.local" "https://vavoo.to/play/1/index.m3u8"
    "https://vavoo.to/play/1/index.m3u8" none ⟨some ⟨.str "SIG", 99⟩, []⟩ 5 5
    (.ok (200, .null)) 200 (.obj []) (.netError true "unused") (.netError true "unused")
    (.str "SIG")
    (by decide) (by rfl) (by rfl) (by rfl) ?_ (by rfl)
  intro e he
  rw [show (getVavooSignatureV2 ⟨some ⟨JsonVal.str "SIG", 99⟩, []⟩ 5
    (.ok (200, .null)) 5).2.1.cdnUrls = [] from rfl] at he
  exact absurd he (List.not_mem_nil _)

/-- **C6** (counterexample).  The `stream/route.ts` handler funnels an
aborted (timed-out) upstream fetch through its catch-all and answers 500,
not 504, with the own message of the abort error as the body (an `AbortError`
is an `Error` instance, so `error.message` is returned): a concrete valid
relay request whose content fetch aborts. -/
theorem claimC6_counterexample :
    (GETstream "http://proxy.local" (some "https://cdn.example/live/index.m3u8") none
        none 0 0 (.error ()) (.timeout "This operation was aborted")).1 =
      ⟨500, .jsonError "This operation was aborted"⟩ ∧
    (500 : Nat) ≠ 504 :=
  ⟨rfl, by decide⟩

/-- **C6** (amended).  Only `vavoo-stream-v2` surfaces an aborted upstream
fetch as 504: every content fetch the handler issues, in every mode, goes
through `fetchPhaseV2`, which answers `504 Request timeout` when the
initial fetch aborts and likewise when the 403-retry fetch aborts; a valid
standard-mode request is traced end to end.  The `stream/route.ts` handler
and the `part_002` fetch phase have no `AbortError` case: they surface the
same abort as 500 with the own message of the abort error. -/
theorem claimC6_amended :
    (∀ (reqOrigin mode targetUrl finalUrl ua : String) (sigH : Option JsonVal)
      (range : Option String) (st : CacheState) (msg : String)
      (fetchRetry : FetchOutcome),
      (fetchPhaseV2 reqOrigin mode targetUrl finalUrl ua sigH range st
        (.timeout msg) fetchRetry).1 = ⟨504, .jsonError "Request timeout"⟩) ∧
    (∀ (reqOrigin mode targetUrl finalUrl ua : String) (sigH : Option JsonVal)
      (range : Option String) (st : CacheState) (ct body rurl msg : String),
      containsStr finalUrl ".m3u8" = false →
      (fetchPhaseV2 reqOrigin mode targetUrl finalUrl ua sigH range st
        (.ok 403 ct body rurl) (.timeout msg)).1 = ⟨504, .jsonError "Request timeout"⟩) ∧
    (∀ (reqOrigin u targetUrl : String) (range : Option String) (st : CacheState)
      (now now2 : Nat) (pingResp resolveResp : NetResp) (msg : String)
      (fetchRetry : FetchOutcome),
      ¬ u = "" → decodeURIComponent u = some targetUrl →
      (parseURL targetUrl).isSome = true →
      (GETv2 reqOrigin (some u) none range st now now2 pingResp resolveResp
        (.timeout msg) fetchRetry).1.status = 504) ∧
    (∀ (reqOrigin u targetUrl : String) (range : Option String) (c : Option SigTS)
      (now now2 : Nat) (pingResp : NetResp) (msg : String),
      ¬ u = "" → decodeURIComponent u = some targetUrl →
      (parseURL targetUrl).isSome = true →
      (GETstream reqOrigin (some u) range c now now2 pingResp (.timeout msg)).1 =
        ⟨500, .jsonError msg⟩) ∧
    (∀ (reqOrigin targetUrl ua : String) (range : Option String) (msg : String),
      (p2FetchPhase reqOrigin targetUrl ua range (.timeout msg)).1 =
        ⟨500, .jsonError msg⟩) := by
  refine ⟨?_, ?_, ?_, ?_, ?_⟩
  · intro reqOrigin mode targetUrl finalUrl ua sigH range st msg fetchRetry
    rfl
  · intro reqOrigin mode targetUrl finalUrl ua sigH range st ct body rurl msg hseg
    dsimp only [fetchPhaseV2]
    rw [if_pos (show isOkStatus 403 = false ∧ (403 : Nat) ≠ 206 by refine ⟨rfl, by decide⟩),
      if_pos ⟨hseg, rfl⟩]
  · intro reqOrigin u targetUrl range st now now2 pingResp resolveResp msg fetchRetry
      hne hdec hparse
    dsimp only [GETv2]
    rw [if_neg hne, hdec]
    dsimp only
    cases hp : parseURL targetUrl with
    | none => rw [hp] at hparse; cases hparse
    | some p =>
      dsimp only
      rw [if_neg (show ¬ (("standard" : String) = "cdn") by decide),
        if_neg (show ¬ (("standard" : String) = "auth") by decide)]
      by_cases hv : isVavooUrl targetUrl = true
      · rw [if_pos hv]
        rfl
      · rw [if_neg hv]
        rfl
  · intro reqOrigin u targetUrl range c now now2 pingResp msg hne hdec hparse
    dsimp only [GETstream]
    rw [if_neg hne, hdec]
    dsimp only
    cases hp : parseURL targetUrl with
    | none => rw [hp] at hparse; cases hparse
    | some p =>
      dsimp only
  · intro reqOrigin targetUrl ua range msg
    rfl

/-- Witness for the amended C6: a concrete aborted retry answers
`504 Request timeout`, a concrete valid timed-out v2 request answers 504,
and the same request to the `stream` handler answers 500 with the abort
message. -/
theorem claimC6_amended_witness :
    (fetchPhaseV2 "http://proxy.local" "standard" "https://cdn.example/live/seg9.ts"
        "https://cdn.example/live/seg9.ts" vavooUA none none ⟨none, []⟩
        (.ok 403 "video/MP2T" "" "") (.timeout "This operation was aborted")).1 =
      ⟨504, .jsonError "Request timeout"⟩ ∧
    (GETv2 "http://proxy.local" (some "https://cdn.example/live/index.m3u8") none none
        ⟨none, []⟩ 0 0 (.error ()) (.error ()) (.timeout "This operation was aborted")
        (.netError true "unused2")).1.status = 504 ∧
    (GETstream "http://proxy.local" (some "https://cdn.example/live/index.m3u8") none
        none 0 0 (.error ()) (.timeout "This operation was aborted")).1 =
      ⟨500, .jsonError "This operation was aborted"⟩ :=
  ⟨claimC6_amended.2.1 "http://proxy.local" "standard" "https://cdn.example/live/seg9.ts"
      "https://cdn.example/live/seg9.ts" vavooUA none none ⟨none, []⟩ "video/MP2T" "" ""
      "This operation was aborted" (by decide),
   claimC6_amended.2.2.1 "http://proxy.local" "https://cdn.example/live/index.m3u8"
      "https://cdn.example/live/index.m3u8" none ⟨none, []⟩ 0 0 (.error ()) (.error ())
      "This operation was aborted" (.netError true "unused2") (by decide) rfl rfl,
   claimC6_amended.2.2.2.1 "http://proxy.local" "https://cdn.example/live/index.m3u8"
      "https://cdn.example/live/index.m3u8" none none 0 0 (.error ())
      "This operation was aborted" (by decide) rfl rfl⟩

/-- **C7**.  In the `vavoo-stream-v2` fetch phase (lines 284-307): a 403
on a URL not containing `.m3u8` triggers exactly one retry of the same URL
with the browser user agent and no signature or range headers; if that
retry also fails the handler gives up with the original 403 error.  Any
other failing status, and a 403 on a manifest URL, issue no retry: the
fetch trace stays a single call. -/
theorem claimC7_segment_403_retry (reqOrigin mode targetUrl finalUrl ua : String)
    (sigH : Option JsonVal) (range : Option String) (st : CacheState)
    (ct body rurl : String) (fetchRetry : FetchOutcome) :
    (containsStr finalUrl ".m3u8" = false →
      (fetchPhaseV2 reqOrigin mode targetUrl finalUrl ua sigH range st
          (.ok 403 ct body rurl) fetchRetry).2.2 =
        [⟨finalUrl, ua, sigH, range⟩, ⟨finalUrl, browserUA, none, none⟩]) ∧
    (∀ rs : Nat, ∀ rc rb ru : String,
      containsStr finalUrl ".m3u8" = false → isOkStatus rs = false → rs ≠ 206 →
      (fetchPhaseV2 reqOrigin mode targetUrl finalUrl ua sigH range st
          (.ok 403 ct body rurl) (.ok rs rc rb ru)).1 =
        ⟨403, .jsonError ("Fetch error: " ++ toString 403)⟩) ∧
    (∀ status : Nat, isOkStatus status = false → status ≠ 206 → status ≠ 403 →
      (fetchPhaseV2 reqOrigin mode targetUrl finalUrl ua sigH range st
          (.ok status ct body rurl) fetchRetry).2.2 = [⟨finalUrl, ua, sigH, range⟩]) ∧
    (containsStr finalUrl ".m3u8" = true →
      (fetchPhaseV2 reqOrigin mode targetUrl finalUrl ua sigH range st
          (.ok 403 ct body rurl) fetchRetry).2.2 = [⟨finalUrl, ua, sigH, range⟩]) := by
  refine ⟨?_, ?_, ?_, ?_⟩
  · intro hseg
    dsimp only [fetchPhaseV2]
    rw [if_pos (show isOkStatus 403 = false ∧ (403 : Nat) ≠ 206 by refine ⟨rfl, by decide⟩),
      if_pos ⟨hseg, rfl⟩]
    cases fetchRetry with
    | ok rs rc rb ru =>
      dsimp only
      split
      · rfl
      · rfl
    | timeout msg => rfl
    | netError isErr msg => rfl
  · intro rs rc rb ru hseg hnok h206
    dsimp only [fetchPhaseV2]
    rw [if_pos (show isOkStatus 403 = false ∧ (403 : Nat) ≠ 206 by refine ⟨rfl, by decide⟩),
      if_pos ⟨hseg, rfl⟩]
    rw [if_neg ?hng]
    case hng =>
      intro h
      rcases h with h | h
      · rw [hnok] at h
        cases h
      · exact h206 h
  · intro status hnok h206 h403
    dsimp only [fetchPhaseV2]
    rw [if_pos ⟨hnok, h206⟩, if_neg (fun h => h403 h.2)]
  · intro hman
    dsimp only [fetchPhaseV2]
    have hc : ¬ (containsStr finalUrl ".m3u8" = false ∧ (403 : Nat) = 403) := by
      intro h
      rw [hman] at h
      exact absurd h.1 (by decide)
    rw [if_pos (show isOkStatus 403 = false ∧ (403 : Nat) ≠ 206 by refine ⟨rfl, by decide⟩),
      if_neg hc]

/-- Witness for C7 at concrete segment and manifest URLs: the 403 segment
fetch produces the two-call trace and gives up with 403, a 500 stays a
single call, and a 403 on a manifest URL stays a single call. -/
theorem claimC7_segment_403_retry_witness :
    (fetchPhaseV2 "http://proxy.local" "standard" "https://cdn.example/seg1.ts"
        "https://cdn.example/seg1.ts" vavooUA none none ⟨none, []⟩
        (.ok 403 "video/MP2T" "" "") (.ok 403 "" "" "")).2.2 =
      [⟨"https://cdn.example/seg1.ts", vavooUA, none, none⟩,
       ⟨"https://cdn.example/seg1.ts", browserUA, none, none⟩] ∧
    (fetchPhaseV2 "http://proxy.local" "standard" "https://cdn.example/seg1.ts"
        "https://cdn.example/seg1.ts" vavooUA none none ⟨none, []⟩
        (.ok 403 "video/MP2T" "" "") (.ok 403 "" "" "")).1 =
      ⟨403, .jsonError ("Fetch error: " ++ toString 403)⟩ ∧
    (fetchPhaseV2 "http://proxy.local" "standard" "https://cdn.example/seg1.ts"
        "https://cdn.example/seg1.ts" vavooUA none none ⟨none, []⟩
        (.ok 500 "video/MP2T" "" "") (.ok 403 "" "" "")).2.2 =
      [⟨"https://cdn.example/seg1.ts", vavooUA, none, none⟩] ∧
    (fetchPhaseV2 "http://proxy.local" "standard" "https://cdn.example/index.m3u8"
        "https://cdn.example/index.m3u8" vavooUA none none ⟨none, []⟩
        (.ok 403 "application/vnd.apple.mpegurl" "" "") (.ok 403 "" "" "")).2.2 =
      [⟨"https://cdn.example/index.m3u8", vavooUA, none, none⟩] := by
  have h1 := claimC7_segment_403_retry "http://proxy.local" "standard"
    "https://cdn.example/seg1.ts" "https://cdn.example/seg1.ts" vavooUA none none
    ⟨none, []⟩ "video/MP2T" "" "" (.ok 403 "" "" "")
  have h2 := claimC7_segment_403_retry "http://proxy.local" "standard"
    "https://cdn.example/index.m3u8" "https://cdn.example/index.m3u8" vavooUA none none
    ⟨none, []⟩ "application/vnd.apple.mpegurl" "" "" (.ok 403 "" "" "")
  exact ⟨h1.1 (by decide), h1.2.1 403 "" "" "" (by decide) rfl (by decide),
    h1.2.2.1 500 rfl (by decide) (by decide), h2.2.2.2 (by decide)⟩

/-- **C8**.  Both credential providers: a fresh cached credential is
returned immediately with the network-consulted flag `false`; on a miss
followed by a successful issuance with a truthy `addonSig` field, the
`vavoo-stream-v2` variant stores the credential with expiry
`now2 + 3600000` (issuance time plus the one-hour TTL) and the `stream`
variant stores the issuance timestamp `now2` against which its one-hour
age check `now - timestamp < 3600000` runs. -/
theorem claimC8_signature_cache :
    (∀ (st : CacheState) (now : Nat) (ping : NetResp) (now2 : Nat) (e : SigEntry),
      st.signature = some e → now < e.exp →
      getVavooSignatureV2 st now ping now2 =
        (some e.sig, cleanExpiredCache now st, false)) ∧
    (∀ (st : CacheState) (now : Nat) (status : Nat) (body v : JsonVal) (now2 : Nat),
      (cleanExpiredCache now st).signature = none →
      isOkStatus status = true →
      jsonField body "addonSig" = some v → jsonTruthy v = true →
      getVavooSignatureV2 st now (.ok (status, body)) now2 =
        (some v, ⟨some ⟨v, now2 + 3600000⟩, (cleanExpiredCache now st).cdnUrls⟩, true)) ∧
    (∀ (now : Nat) (ping : NetResp) (now2 : Nat) (e : SigTS),
      now - e.timestamp < 3600000 →
      getVavooSignatureStream (some e) now ping now2 = (some e.sig, some e, false)) ∧
    (∀ (now status : Nat) (body v : JsonVal) (now2 : Nat),
      isOkStatus status = true →
      jsonField body "addonSig" = some v → jsonTruthy v = true →
      getVavooSignatureStream none now (.ok (status, body)) now2 =
        (some v, some ⟨v, now2⟩, true)) := by
  refine ⟨?_, ?_, ?_, ?_⟩
  · intro st now ping now2 e hsig hlt
    have hclean : (cleanExpiredCache now st).signature = some e := by
      dsimp only [cleanExpiredCache]
      rw [hsig]
      dsimp only
      rw [if_neg (by omega)]
    dsimp only [getVavooSignatureV2]
    rw [hclean]
    dsimp only
    rw [if_pos hlt]
  · intro st now status body v now2 hclean hok hfield htruthy
    dsimp only [getVavooSignatureV2]
    rw [hclean]
    dsimp only
    rw [if_neg (show ¬ (isOkStatus status = false) by rw [hok]; decide),
      hfield]
    dsimp only
    rw [htruthy]
    rw [if_pos rfl]
  · intro now ping now2 e hage
    dsimp only [getVavooSignatureStream]
    rw [if_pos hage]
  · intro now status body v now2 hok hfield htruthy
    dsimp only [getVavooSignatureStream]
    rw [if_neg (show ¬ (isOkStatus status = false) by rw [hok]; decide),
      hfield]
    dsimp only
    rw [htruthy]
    rw [if_pos rfl]

/-- Witness for C8: a fresh entry is served from cache, and a concrete
miss-then-success stores the expected entry, in both variants. -/
theorem claimC8_signature_cache_witness :
    getVavooSignatureV2 ⟨some ⟨.str "S", 10⟩, []⟩ 5 (.error ()) 7 =
      (some (JsonVal.str "S"), cleanExpiredCache 5 ⟨some ⟨.str "S", 10⟩, []⟩, false) ∧
    getVavooSignatureV2 ⟨none, []⟩ 5 (.ok (200, .obj [("addonSig", .str "NEW")])) 7 =
      (some (JsonVal.str "NEW"),
        ⟨some ⟨.str "NEW", 7 + 3600000⟩, (cleanExpiredCache 5 ⟨none, []⟩).cdnUrls⟩, true) ∧
    getVavooSignatureStream (some ⟨.str "S", 3⟩) 5 (.error ()) 7 =
      (some (JsonVal.str "S"), some ⟨.str "S", 3⟩, false) ∧
    getVavooSignatureStream none 5 (.ok (200, .obj [("addonSig", .str "NEW")])) 7 =
      (some (JsonVal.str "NEW"), some ⟨.str "NEW", 7⟩, true) :=
  ⟨claimC8_signature_cache.1 ⟨some ⟨.str "S", 10⟩, []⟩ 5 (.error ()) 7 ⟨.str "S", 10⟩
      rfl (by decide),
   claimC8_signature_cache.2.1 ⟨none, []⟩ 5 200 (.obj [("addonSig", .str "NEW")])
      (.str "NEW") 7 rfl rfl rfl rfl,
   claimC8_signature_cache.2.2.1 5 (.error ()) 7 ⟨.str "S", 3⟩ (by decide),
   claimC8_signature_cache.2.2.2 5 200 (.obj [("addonSig", .str "NEW")]) (.str "NEW") 7
      rfl rfl rfl⟩

/-- On every failure of the `vavoo-stream-v2` credential provider the
resulting cache is exactly the expiry-cleaned input cache. -/
theorem getVavooSignatureV2_fail_state (st : CacheState) (now : Nat) (ping : NetResp)
    (now2 : Nat) (hfail : (getVavooSignatureV2 st now ping now2).1 = none) :
    (getVavooSignatureV2 st now ping now2).2.1 = cleanExpiredCache now st := by
  dsimp only [getVavooSignatureV2] at hfail ⊢
  cases hhit : (match (cleanExpiredCache now st).signature with
      | some e => if now < e.exp then some e.sig else none
      | none => (none : Option JsonVal)) with
  | some s => rw [hhit] at hfail
  | none =>
    rw [hhit] at hfail
    dsimp only at hfail ⊢
    cases ping with
    | error e => rfl
    | ok pr =>
      cases pr with
      | mk status body =>
        dsimp only at hfail ⊢
        by_cases hok : isOkStatus status = false
        · rw [if_pos hok]
        · rw [if_neg hok] at hfail ⊢
          cases hsv : (match jsonField body "addonSig" with
              | some v => if jsonTruthy v then some v else none
              | none => (none : Option JsonVal)) with
          | some v =>
            rw [hsv] at hfail
            have hfail2 : some v = (none : Option JsonVal) := hfail
            cases hfail2
          | none => rfl

/-- On every failure of the `vavoo-stream-v2` resolver the resulting cache
is exactly the expiry-cleaned input cache. -/
theorem resolveVavooUrlV2_fail_state (u : String) (st : CacheState) (now : Nat)
    (resp : NetResp) (now2 : Nat)
    (hfail : (resolveVavooUrlV2 u st now resp now2).1 = none) :
    (resolveVavooUrlV2 u st now resp now2).2.1 = cleanExpiredCache now st := by
  dsimp only [resolveVavooUrlV2] at hfail ⊢
  cases hhit : (match (cleanExpiredCache now st).cdnUrls.lookup u with
      | some e => if now < e.exp then some e.url else none
      | none => (none : Option JsonVal)) with
  | some s => rw [hhit] at hfail
  | none =>
    rw [hhit] at hfail
    dsimp only at hfail ⊢
    cases resp with
    | error e => rfl
    | ok pr =>
      cases pr with
      | mk status body =>
        dsimp only at hfail ⊢
        by_cases hok : isOkStatus status = false
        · rw [if_pos hok]
        · rw [if_neg hok] at hfail ⊢
          cases hext : extractCdnUrl body with
          | some v =>
            rw [hext] at hfail
            have hfail2 : some v = (none : Option JsonVal) := hfail
            cases hfail2
          | none => rfl

/-- **C9**.  On every failure path of credential issuance and of
indirection resolution the process-wide caches gain no entry: in
`vavoo-stream-v2` every cache entry surviving a failed call was already
present beforehand (the only change is dropping already-expired entries),
and in `stream/route.ts` a failed call leaves the credential cell exactly
as it was. -/
theorem claimC9_no_poison_entries :
    (∀ (st : CacheState) (now : Nat) (ping : NetResp) (now2 : Nat),
      (getVavooSignatureV2 st now ping now2).1 = none →
      cacheEntriesSub (getVavooSignatureV2 st now ping now2).2.1 st) ∧
    (∀ (u : String) (st : CacheState) (now : Nat) (resp : NetResp) (now2 : Nat),
      (resolveVavooUrlV2 u st now resp now2).1 = none →
      cacheEntriesSub (resolveVavooUrlV2 u st now resp now2).2.1 st) ∧
    (∀ (c : Option SigTS) (now : Nat) (ping : NetResp) (now2 : Nat),
      (getVavooSignatureStream c now ping now2).1 = none →
      (getVavooSignatureStream c now ping now2).2.1 = c) := by
  refine ⟨?_, ?_, ?_⟩
  · intro st now ping now2 hfail
    rw [getVavooSignatureV2_fail_state st now ping now2 hfail]
    exact cacheEntriesSub_clean now st
  · intro u st now resp now2 hfail
    rw [resolveVavooUrlV2_fail_state u st now resp now2 hfail]
    exact cacheEntriesSub_clean now st
  · intro c now ping now2 hfail
    dsimp only [getVavooSignatureStream] at hfail ⊢
    cases hhit : (match c with
        | some e => if now - e.timestamp < 3600000 then some e.sig else none
        | none => (none : Option JsonVal)) with
    | some s => rw [hhit] at hfail
    | none =>
      rw [hhit] at hfail
      dsimp only at hfail ⊢
      cases ping with
      | error e => rfl
      | ok pr =>
        cases pr with
        | mk status body =>
          dsimp only at hfail ⊢
          by_cases hok : isOkStatus status = false
          · rw [if_pos hok]
          · rw [if_neg hok] at hfail ⊢
            cases hsv : (match jsonField body "addonSig" with
                | some v => if jsonTruthy v then some v else none
                | none => (none : Option JsonVal)) with
            | some v =>
              rw [hsv] at hfail
              have hfail2 : some v = (none : Option JsonVal) := hfail
              cases hfail2
            | none => rfl

/-- Witness for C9 at concrete failed calls (thrown ping, resolve payload
`{}`): the caches gain nothing. -/
theorem claimC9_no_poison_entries_witness :
    cacheEntriesSub (getVavooSignatureV2 ⟨none, []⟩ 0 (.error ()) 0).2.1 ⟨none, []⟩ ∧
    cacheEntriesSub
      (resolveVavooUrlV2 "https://vavoo.to/play/1" ⟨none, []⟩ 0 (.ok (200, .obj [])) 0).2.1
      ⟨none, []⟩ ∧
    (getVavooSignatureStream none 0 (.error ()) 0).2.1 = none :=
  ⟨claimC9_no_poison_entries.1 ⟨none, []⟩ 0 (.error ()) 0 rfl,
   claimC9_no_poison_entries.2.1 "https://vavoo.to/play/1" ⟨none, []⟩ 0
      (.ok (200, .obj [])) 0 rfl,
   claimC9_no_poison_entries.2.2 none 0 (.error ()) 0 rfl⟩

end Relive
